import Mathlib

/-!
Verification development for the arducap repository: a decoder for
ArduPilot self-describing binary logs (`src/reader.rs`), two transformers
turning decoded records into Foxglove-style messages (`src/transformers.rs`),
and the mcap channel/schema registry loop (`src/pipeline.rs`).

The source is shallowly embedded: the byte source is a `List Nat` of bytes
(each < 256 in any real file), the reader's `File` position is an explicit
`Nat`, machine integers are `Nat`/`Int` with explicit `% 2^w` where wrap
can occur, and fallible operations return `Except`/`Option`.  `f32`/`f64`
fields are carried as their raw little-endian bit patterns and converted
exactly to `ℚ` when placed into JSON (IEEE-754 decoding of a finite float
is exact; the reader performs no float arithmetic).
-/

namespace Reader

/-- Error taxonomy of the decoder (`anyhow`/`binrw` errors in the source). -/
inductive Err
  | ioEof                         -- binrw `Io(UnexpectedEof)`
  | badMagic                      -- binrw magic mismatch on the 2-byte marker
  | unknownFmtChar (c : Char)     -- `parse_value` default arm
  | unexpectedChar (c : Char)     -- `field_length` default arm
  | unknownMsgId (id : Nat) (pos : Nat)  -- reader.rs line 268
  deriving DecidableEq, Repr

/-- Decoded scalar value (`LogValue` in reader.rs).  Floats are carried as
their raw little-endian bit patterns. -/
inductive LogValue
  | int (v : Int)
  | uint (v : Nat)
  | float (bits : Nat)
  | double (bits : Nat)
  | str (s : String)
  deriving DecidableEq, Repr

/-- Function `field_length` of reader.rs: byte width of a one-character type tag. -/
def field_length (fmt_char : Char) : Except Err Nat :=
  match fmt_char with
  | 'b' | 'B' | 'M' => .ok 1
  | 'h' | 'c' | 'H' | 'C' => .ok 2
  | 'i' | 'L' | 'I' | 'E' | 'e' | 'f' | 'n' => .ok 4
  | 'q' | 'Q' | 'd' => .ok 8
  | 'N' => .ok 16
  | 'Z' => .ok 64
  | _ => .error (.unexpectedChar fmt_char)

/-- Bytes `[pos, pos+n)` of the source, if available. -/
def slice (src : List Nat) (pos n : Nat) : List Nat :=
  (src.drop pos).take n

/-- Little-endian value of a byte list. -/
def leNat (bs : List Nat) : Nat :=
  bs.foldr (fun b acc => b + 256 * acc) 0

/-- Read `n` bytes little-endian at `pos`; `none` models an
`UnexpectedEof` I/O failure of `read_exact`/`read_le`. -/
def leVal (src : List Nat) (pos n : Nat) : Option Nat :=
  if pos + n ≤ src.length then some (leNat (slice src pos n)) else none

/-- Two's-complement reinterpretation of a `w`-byte unsigned value. -/
def toSigned (w v : Nat) : Int :=
  if v < 2 ^ (8 * w - 1) then (v : Int) else (v : Int) - 2 ^ (8 * w)

/-- Is `b` a UTF-8 continuation byte (`0x80..0xBF`)? -/
def isCont (b : Nat) : Bool := 0x80 ≤ b && b ≤ 0xBF

/-- The Unicode replacement character U+FFFD. -/
def fffd : Char := Char.ofNat 0xFFFD

/-- UTF-8 decoding with U+FFFD substitution of maximal invalid subparts,
the behavior of Rust's `String::from_utf8_lossy` (Unicode Table 3-7: each
leading byte constrains the range of its first continuation byte, which
rules out overlong encodings, surrogates and values above U+10FFFF). -/
def utf8Lossy (l : List Nat) : List Char :=
  match l with
  | [] => []
  | b :: rest =>
    if b < 0x80 then Char.ofNat b :: utf8Lossy rest
    else if 0xC2 ≤ b && b ≤ 0xDF then
      match rest with
      | b1 :: r1 =>
        if isCont b1 then Char.ofNat ((b - 0xC0) * 64 + (b1 - 0x80)) :: utf8Lossy r1
        else fffd :: utf8Lossy (b1 :: r1)
      | [] => [fffd]
    else if 0xE0 ≤ b && b ≤ 0xEF then
      -- second-byte range depends on the leading byte
      let lo1 : Nat := if b = 0xE0 then 0xA0 else 0x80
      let hi1 : Nat := if b = 0xED then 0x9F else 0xBF
      match rest with
      | b1 :: r1 =>
        if lo1 ≤ b1 && b1 ≤ hi1 then
          match r1 with
          | b2 :: r2 =>
            if isCont b2 then
              Char.ofNat ((b - 0xE0) * 4096 + (b1 - 0x80) * 64 + (b2 - 0x80)) :: utf8Lossy r2
            else fffd :: utf8Lossy (b2 :: r2)
          | [] => [fffd]
        else fffd :: utf8Lossy (b1 :: r1)
      | [] => [fffd]
    else if 0xF0 ≤ b && b ≤ 0xF4 then
      let lo1 : Nat := if b = 0xF0 then 0x90 else 0x80
      let hi1 : Nat := if b = 0xF4 then 0x8F else 0xBF
      match rest with
      | b1 :: r1 =>
        if lo1 ≤ b1 && b1 ≤ hi1 then
          match r1 with
          | b2 :: r2 =>
            if isCont b2 then
              match r2 with
              | b3 :: r3 =>
                if isCont b3 then
                  Char.ofNat ((b - 0xF0) * 262144 + (b1 - 0x80) * 4096 +
                    (b2 - 0x80) * 64 + (b3 - 0x80)) :: utf8Lossy r3
                else fffd :: utf8Lossy (b3 :: r3)
              | [] => [fffd]
            else fffd :: utf8Lossy (b2 :: r2)
          | [] => [fffd]
        else fffd :: utf8Lossy (b1 :: r1)
      | [] => [fffd]
    else
      -- invalid leading byte (0x80..0xC1 or 0xF5..0xFF)
      fffd :: utf8Lossy rest

/-- Function `sanitize_str` of reader.rs: lossy UTF-8 decode, then strip every
trailing NUL (`trim_end_matches('\0')`). -/
def sanitize_str (bytes : List Nat) : String :=
  String.mk (((utf8Lossy bytes).reverse.dropWhile (· = Char.ofNat 0)).reverse)

/-- Rust `char::is_whitespace` (the Unicode `White_Space` property). -/
def rustIsWhitespace (c : Char) : Bool :=
  c.toNat ∈ [0x09, 0x0A, 0x0B, 0x0C, 0x0D, 0x20, 0x85, 0xA0, 0x1680,
    0x2000, 0x2001, 0x2002, 0x2003, 0x2004, 0x2005, 0x2006, 0x2007,
    0x2008, 0x2009, 0x200A, 0x2028, 0x2029, 0x202F, 0x205F, 0x3000]

/-- Rust `str::trim`: drop leading and trailing whitespace. -/
def rustTrim (s : String) : String :=
  String.mk (((s.data.dropWhile rustIsWhitespace).reverse.dropWhile
    rustIsWhitespace).reverse)

/-- Rust `str::split(',')` over the character list of a string: splits at
every comma, keeping empty pieces (so `"".split(',') = [""]`). -/
def splitOnComma (l : List Char) : List (List Char) :=
  match l with
  | [] => [[]]
  | c :: rest =>
    let r := splitOnComma rest
    if c = ',' then [] :: r
    else
      match r with
      | h :: t => (c :: h) :: t
      | [] => [[c]]

/-- Function `parse_value` of reader.rs: decode one field of tag `fmt_char`
starting at `pos`, returning the value and the new position. -/
def parse_value (src : List Nat) (pos : Nat) (fmt_char : Char) :
    Except Err (LogValue × Nat) :=
  let readSigned := fun (w : Nat) =>
    match leVal src pos w with
    | some v => Except.ok (LogValue.int (toSigned w v), pos + w)
    | none => Except.error Err.ioEof
  let readUnsigned := fun (w : Nat) =>
    match leVal src pos w with
    | some v => Except.ok (LogValue.uint v, pos + w)
    | none => Except.error Err.ioEof
  let readStr := fun (w : Nat) =>
    if pos + w ≤ src.length then
      Except.ok (LogValue.str (sanitize_str (slice src pos w)), pos + w)
    else Except.error Err.ioEof
  match fmt_char with
  -- signed ints
  | 'b' => readSigned 1
  | 'h' | 'c' => readSigned 2
  | 'i' | 'L' | 'e' => readSigned 4
  | 'q' => readSigned 8
  -- unsigned ints
  | 'B' | 'M' => readUnsigned 1
  | 'H' | 'C' => readUnsigned 2
  | 'I' | 'E' => readUnsigned 4
  | 'Q' => readUnsigned 8
  -- floats, carried as raw bit patterns
  | 'f' =>
    match leVal src pos 4 with
    | some v => .ok (.float v, pos + 4)
    | none => .error .ioEof
  | 'd' =>
    match leVal src pos 8 with
    | some v => .ok (.double v, pos + 8)
    | none => .error .ioEof
  -- strings, fixed width
  | 'n' => readStr 4
  | 'N' => readStr 16
  | 'Z' => readStr 64
  | _ => .error (.unknownFmtChar fmt_char)

/-- A `serde_json::Value` as produced by this program: an i64-backed
number, a u64-backed number, an f64-backed number (exact value of a
finite float as a rational), a string, or null. -/
inductive JVal
  | int (v : Int)
  | uint (v : Nat)
  | num (q : ℚ)
  | str (s : String)
  | null
  deriving DecidableEq, Repr

/-- Exact value of a finite IEEE-754 binary32 from its bit pattern;
`none` for infinities and NaNs. -/
def decodeF32 (bits : Nat) : Option ℚ :=
  let sign : Nat := bits / 2 ^ 31 % 2
  let expo : Nat := bits / 2 ^ 23 % 2 ^ 8
  let frac : Nat := bits % 2 ^ 23
  if expo = 255 then none
  else
    let mag : ℚ :=
      if expo = 0 then (frac : ℚ) / 2 ^ 149
      else ((2 ^ 23 + frac : Nat) : ℚ) * 2 ^ expo / 2 ^ 150
    some (if sign = 1 then -mag else mag)

/-- Exact value of a finite IEEE-754 binary64 from its bit pattern. -/
def decodeF64 (bits : Nat) : Option ℚ :=
  let sign : Nat := bits / 2 ^ 63 % 2
  let expo : Nat := bits / 2 ^ 52 % 2 ^ 11
  let frac : Nat := bits % 2 ^ 52
  if expo = 2047 then none
  else
    let mag : ℚ :=
      if expo = 0 then (frac : ℚ) / 2 ^ 1074
      else ((2 ^ 52 + frac : Nat) : ℚ) * 2 ^ expo / 2 ^ 1075
    some (if sign = 1 then -mag else mag)

/-- The `impl From<LogValue> for Value` of reader.rs: non-finite floats
serialize as null, everything else keeps its kind. -/
def logValueToJson : LogValue → JVal
  | .int v => .int v
  | .uint v => .uint v
  | .float b =>
    match decodeF32 b with
    | some q => .num q
    | none => .null
  | .double b =>
    match decodeF64 b with
    | some q => .num q
    | none => .null
  | .str s => .str s

/-- Method `serde_json::Value::as_i64`: integers in i64 range only. -/
def JVal.asI64 : JVal → Option Int
  | .int v => some v
  | .uint v => if v < 2 ^ 63 then some (v : Int) else none
  | _ => none

/-- Method `serde_json::Value::as_f64`.  The source casts i64/u64 with `as f64`
(which rounds beyond 2^53); the model keeps the exact rational, which
agrees with the source on every value that reaches a claim. -/
def JVal.asF64 : JVal → Option ℚ
  | .int v => some (v : ℚ)
  | .uint v => some (v : ℚ)
  | .num q => some q
  | _ => none

/-- The JSON object built for a data record (`serde_json::Map`): an
association list with `insert`-replaces-existing semantics.  The BTreeMap
key ordering of serde is not observed anywhere in this program. -/
abbrev JObj := List (String × JVal)

/-- Method `Map::get`. -/
def jGet (obj : JObj) (k : String) : Option JVal :=
  (List.find? (fun p => p.1 = k) obj).map (·.2)

/-- Method `Map::insert`: replace the value under an existing key, else append. -/
def jInsert (obj : JObj) (k : String) (v : JVal) : JObj :=
  if (List.any obj (fun p => p.1 = k)) then
    List.map (fun p => if p.1 = k then (k, v) else p) obj
  else obj ++ [(k, v)]

/-- Struct `FmtPacket` of reader.rs (all text fields already sanitized). -/
structure FmtPacket where
  type_id : Nat            -- u8
  length : Nat             -- u8, unused beyond the header
  name : String            -- 4 bytes, sanitized
  format_str : String      -- 16 bytes, sanitized
  labels : String          -- 64 bytes, sanitized
  deriving DecidableEq, Repr

/-- Struct `ArduDefinition` of reader.rs. -/
structure ArduDefinition where
  ardu_fmt : FmtPacket
  labels : List String
  deriving DecidableEq, Repr

/-- Struct `ArduMessage` of reader.rs. -/
structure ArduMessage where
  type_id : Nat            -- u8
  current_ts : Nat         -- u64
  json_obj : JObj
  deriving DecidableEq, Repr

/-- The mutable state of `ArduReader` (the open `File` is the pair of the
fixed byte source, passed separately, and the explicit position). -/
structure ReaderState where
  definitions : List (Nat × ArduDefinition)
  last_timestamp : Nat     -- u64
  pos : Nat
  deriving DecidableEq, Repr

/-- A fresh reader (`ArduReader::new`). -/
def ReaderState.init : ReaderState := ⟨[], 0, 0⟩

/-- Method `HashMap::get` over the definitions map. -/
def lookupDef (m : List (Nat × ArduDefinition)) (k : Nat) : Option ArduDefinition :=
  (List.find? (fun p => p.1 = k) m).map (·.2)

/-- Method `HashMap::insert` over the definitions map (replace or add). -/
def insertDef (m : List (Nat × ArduDefinition)) (k : Nat) (d : ArduDefinition) :
    List (Nat × ArduDefinition) :=
  if (List.any m (fun p => p.1 = k)) then
    List.map (fun p => if p.1 = k then (k, d) else p) m
  else m ++ [(k, d)]

/-- Reader `PacketHeader::read`: the 2-byte magic `A3 95` then the message id.
Fewer than 2 bytes for the magic or a missing id byte is an
`UnexpectedEof`; a wrong marker is binrw's `BadMagic` error. -/
def readPacketHeader (src : List Nat) (pos : Nat) : Except Err (Nat × Nat) :=
  match src[pos]?, src[pos + 1]? with
  | some m1, some m2 =>
    if m1 = 0xA3 ∧ m2 = 0x95 then
      match src[pos + 2]? with
      | some id => .ok (id, pos + 3)
      | none => .error .ioEof
    else .error .badMagic
  | _, _ => .error .ioEof

/-- Reader `FmtPacket::read`: type id, length, then the three NUL-padded text
fields of widths 4, 16 and 64 (86 bytes total). -/
def readFmtPacket (src : List Nat) (pos : Nat) : Except Err (FmtPacket × Nat) :=
  if pos + 86 ≤ src.length then
    .ok ({ type_id := src.getD pos 0
         , length := src.getD (pos + 1) 0
         , name := sanitize_str (slice src (pos + 2) 4)
         , format_str := sanitize_str (slice src (pos + 6) 16)
         , labels := sanitize_str (slice src (pos + 22) 64) }, pos + 86)
  else .error .ioEof

/-- Outcome of one field of the data-record loop (reader.rs 212-251). -/
inductive FieldOutcome
  | ok (label : String) (v : LogValue) (newPos : Nat)
  | eofTrunc                -- `return Ok(ArduFrame::Eof)` on confirmed truncation
  | fatal (e : Err)         -- `return Err(..)`
  | indexOutOfRange         -- the `definition.labels[idx]` panic
  deriving DecidableEq, Repr

/-- One iteration of the field loop: run `parse_value`, index the label
list (a panic if `idx` is out of range — the indexing happens before the
decode result is inspected), then on a decode failure compute the file
size, the current position and `field_length` and either convert a
confirmed truncation into `Eof` or propagate the error. -/
def fieldStep (src : List Nat) (labels : List String) (idx : Nat) (c : Char)
    (pos : Nat) : FieldOutcome :=
  let val := parse_value src pos c
  match labels[idx]? with
  | none => .indexOutOfRange
  | some label =>
    match val with
    | .ok (v, p) => .ok label v p
    | .error e =>
      match field_length c with
      | .error e2 => .fatal e2
      | .ok len => if pos + len > src.length then .eofTrunc else .fatal e

/-- The timestamp update at a field labeled "TimeUS" (reader.rs 241-248):
an unsigned integer multiplies by 1000 in u64; a signed integer is cast
`as u64` first.  Any other kind of value leaves the timestamp alone. -/
def tsOfVal (ts : Nat) (label : String) (v : LogValue) : Nat :=
  if label = "TimeUS" then
    match v with
    | .uint u => u * 1000 % 2 ^ 64
    | .int i => (i % (2 ^ 64 : Int)).toNat * 1000 % 2 ^ 64
    | _ => ts
  else ts

/-- Result of the whole field loop. -/
inductive RecordOutcome
  | done (ts : Nat) (pos : Nat) (obj : JObj)
  | eofTrunc
  | fatal (e : Err)
  | indexOutOfRange
  deriving DecidableEq, Repr

/-- The field loop of reader.rs lines 212-251. -/
def decodeLoop (src : List Nat) (labels : List String) :
    List Char → Nat → Nat → Nat → JObj → RecordOutcome
  | [], _, pos, ts, obj => .done ts pos obj
  | c :: cs, idx, pos, ts, obj =>
    match fieldStep src labels idx c pos with
    | .indexOutOfRange => .indexOutOfRange
    | .eofTrunc => .eofTrunc
    | .fatal e => .fatal e
    | .ok label v p =>
      decodeLoop src labels cs (idx + 1) p (tsOfVal ts label v)
        (jInsert obj label (logValueToJson v))

/-- One frame produced by `ArduReader::read`. -/
inductive ReadOutcome
  | definition (d : ArduDefinition)
  | message (m : ArduMessage)
  | eof
  | fatal (e : Err)
  | indexOutOfRange
  deriving DecidableEq, Repr

/-- Method `ArduReader::read` (reader.rs 171-273).  Both error arms of the
header match — `Io(UnexpectedEof)` and the catch-all "Unexpected error,
but likely EOF" — return `Eof`. -/
def ArduReader.read (src : List Nat) (st : ReaderState) :
    ReaderState × ReadOutcome :=
  match readPacketHeader src st.pos with
  | .error _ => (st, .eof)
  | .ok (msgId, p1) =>
    if msgId = 128 then
      match readFmtPacket src p1 with
      | .error e => ({ st with pos := p1 }, .fatal e)
      | .ok (fmt, p2) =>
        let labels := (splitOnComma fmt.labels.data).map
          (fun cs => rustTrim (String.mk cs))
        let d : ArduDefinition := ⟨fmt, labels⟩
        ({ st with pos := p2, definitions := insertDef st.definitions fmt.type_id d },
         .definition d)
    else
      match lookupDef st.definitions msgId with
      | some d =>
        match decodeLoop src d.labels d.ardu_fmt.format_str.data 0 p1 0 [] with
        | .done ts p2 obj =>
          if ts > 0 then
            ({ st with pos := p2, last_timestamp := ts },
             .message ⟨msgId, ts, obj⟩)
          else
            ({ st with pos := p2 },
             .message ⟨msgId, st.last_timestamp, obj⟩)
        | .eofTrunc => (st, .eof)
        | .fatal e => (st, .fatal e)
        | .indexOutOfRange => (st, .indexOutOfRange)
      | none => (st, .fatal (.unknownMsgId msgId p1))

/-- Iterate `read` `n` times, collecting the produced frames. -/
def readN (src : List Nat) (st : ReaderState) : Nat → ReaderState × List ReadOutcome
  | 0 => (st, [])
  | n + 1 =>
    let (st1, o) := ArduReader.read src st
    let (st2, os) := readN src st1 n
    (st2, o :: os)

/-! Concrete inputs used below.  `fmtFrame` is a definition frame for
type id 1: name "TST", format "Q", labels "TimeUS". -/

def tsDefPacket : FmtPacket := ⟨1, 9, "TST", "Q", "TimeUS"⟩

def tsDef : ArduDefinition := ⟨tsDefPacket, ["TimeUS"]⟩

def fmtFrame : List Nat :=
  [0xA3, 0x95, 128, 1, 9] ++ [84, 83, 84, 0] ++ ([81] ++ List.replicate 15 0)
    ++ ([84, 105, 109, 101, 85, 83] ++ List.replicate 58 0)

/-- Definition frame, a data record with TimeUS = 7, then one with
TimeUS = 0. -/
def tsFile : List Nat :=
  fmtFrame ++ [0xA3, 0x95, 1, 7, 0, 0, 0, 0, 0, 0, 0]
    ++ [0xA3, 0x95, 1, 0, 0, 0, 0, 0, 0, 0, 0]

/-- Definition frame followed by a data frame cut off after 1 of the 8
bytes of its single 'Q' field. -/
def truncFile : List Nat := fmtFrame ++ [0xA3, 0x95, 1, 9]

/-- Definition frame for type id 2 whose format string "BB" declares two
fields while its label list "A" holds a single label, followed by a data
frame for type 2 with both field bytes present. -/
def shortLabelsFile : List Nat :=
  ([0xA3, 0x95, 128, 2, 9] ++ [65, 66, 0, 0] ++ ([66, 66] ++ List.replicate 14 0)
    ++ ([65] ++ List.replicate 63 0)) ++ [0xA3, 0x95, 2, 5, 6]

/-- C1: a field-decode failure is converted into `Eof` exactly when the
bytes remaining in the source are fewer than the field's declared width;
with enough bytes remaining (possible only for a tag with no declared
width, whose `field_length` error is propagated by the `?` on line 225)
the failure is fatal; and a truncated field makes the whole `read` call
return `Eof`. -/
theorem c1_truncation_is_eof :
    (∀ (src : List Nat) (labels : List String) (idx : Nat) (c : Char) (pos : Nat)
        (e : Err) (len : Nat),
      parse_value src pos c = .error e →
      idx < labels.length →
      field_length c = .ok len →
      src.length < pos + len →
      fieldStep src labels idx c pos = .eofTrunc)
  ∧ (∀ (src : List Nat) (labels : List String) (idx : Nat) (c : Char) (pos : Nat)
        (e : Err),
      parse_value src pos c = .error e →
      idx < labels.length →
      (∀ len, field_length c = .ok len → pos + len ≤ src.length) →
      ∃ e2, fieldStep src labels idx c pos = .fatal e2)
  ∧ (∀ (src : List Nat) (st : ReaderState) (id p : Nat) (d : ArduDefinition),
      readPacketHeader src st.pos = .ok (id, p) →
      id ≠ 128 →
      lookupDef st.definitions id = some d →
      decodeLoop src d.labels d.ardu_fmt.format_str.data 0 p 0 [] = .eofTrunc →
      (ArduReader.read src st).2 = .eof) := by
  refine ⟨?_, ?_, ?_⟩
  · intro src labels idx c pos e len hp hidx hlen hshort
    simp only [fieldStep, hp, List.getElem?_eq_getElem hidx, hlen]
    rw [if_pos (by omega)]
  · intro src labels idx c pos e hp hidx henough
    simp only [fieldStep, hp, List.getElem?_eq_getElem hidx]
    cases hlen : field_length c with
    | error e2 => exact ⟨e2, rfl⟩
    | ok len =>
      have h2 := henough len hlen
      have hng : ¬pos + len > src.length := by omega
      exact ⟨e, by simp [hng]⟩
  · intro src st id p d hh hid hdef hloop
    simp [ArduReader.read, hh, hid, hdef, hloop]

/-- Witness for C1 at concrete inputs: an 'I' field with 1 byte left is
truncation (`Eof`); an unknown tag 'x' is fatal even at the same
position; and reading `truncFile` past its definition frame ends in
`Eof`. -/
theorem c1_truncation_is_eof_witness :
    fieldStep [5] ["A"] 0 'I' 0 = .eofTrunc
  ∧ (∃ e2, fieldStep [5] ["A"] 0 'x' 0 = .fatal e2)
  ∧ (ArduReader.read truncFile ⟨[(1, tsDef)], 0, 89⟩).2 = .eof :=
  ⟨c1_truncation_is_eof.1 [5] ["A"] 0 'I' 0 .ioEof 4 rfl (by decide) rfl (by decide),
   c1_truncation_is_eof.2.1 [5] ["A"] 0 'x' 0 (.unknownFmtChar 'x') rfl (by decide)
     (fun len h => by simp [field_length] at h),
   c1_truncation_is_eof.2.2 truncFile ⟨[(1, tsDef)], 0, 89⟩ 1 92 tsDef
     rfl (by decide) rfl rfl⟩

/-- C2 counterexample: in `tsFile` the second data record carries a
"TimeUS" field with integer value 0, yet its reported timestamp is the
carried-forward 7000 rather than the claimed `0 * 1000 = 0`: the code
treats a zero computed timestamp like a missing one (reader.rs 253-257). -/
theorem c2_counterexample :
    (readN tsFile ReaderState.init 3).2 =
      [.definition tsDef,
       .message ⟨1, 7000, [("TimeUS", .uint 7)]⟩,
       .message ⟨1, 7000, [("TimeUS", .uint 0)]⟩]
  ∧ (0 : Nat) * 1000 ≠ 7000 := by
  exact ⟨by decide, by decide⟩

/-- C2 as amended: a data record's timestamp is the value computed from
its "TimeUS" integer fields by `tsOfVal` (value × 1000 as u64) when that
computed value is nonzero; when it is zero — no "TimeUS" field, or a
"TimeUS" value of 0 — the record inherits `last_timestamp`, and
`last_timestamp` is updated exactly when the computed value is nonzero. -/
theorem c2_amended_timestamp_rule :
    ∀ (src : List Nat) (st : ReaderState) (id p : Nat) (d : ArduDefinition)
      (ts p2 : Nat) (obj : JObj),
      readPacketHeader src st.pos = .ok (id, p) →
      id ≠ 128 →
      lookupDef st.definitions id = some d →
      decodeLoop src d.labels d.ardu_fmt.format_str.data 0 p 0 [] = .done ts p2 obj →
      ArduReader.read src st =
        (⟨st.definitions, if ts > 0 then ts else st.last_timestamp, p2⟩,
         .message ⟨id, if ts > 0 then ts else st.last_timestamp, obj⟩) := by
  intro src st id p d ts p2 obj hh hid hdef hloop
  simp only [ArduReader.read, hh, hid, if_neg hid, hdef, hloop]
  by_cases hts : ts > 0
  · simp [hts]
  · simp [hts]

/-- Witness for C2's amended rule at the third frame of `tsFile`: the
loop computes 0 from `TimeUS = 0` and the message inherits 7000. -/
theorem c2_amended_timestamp_rule_witness :
    ArduReader.read tsFile ⟨[(1, tsDef)], 7000, 100⟩ =
      (⟨[(1, tsDef)], if (0 : Nat) > 0 then 0 else 7000, 111⟩,
       .message ⟨1, if (0 : Nat) > 0 then 0 else 7000, [("TimeUS", .uint 0)]⟩) :=
  c2_amended_timestamp_rule tsFile ⟨[(1, tsDef)], 7000, 100⟩ 1 103 tsDef 0 111
    [("TimeUS", .uint 0)] rfl (by decide) rfl rfl

/-! C3: the field-codec table. -/

/-- The kind of a decoded value. -/
inductive FieldKind
  | sint | uns | f32 | f64 | text
  deriving DecidableEq, Repr

/-- The kind of a `LogValue`. -/
def kindOf : LogValue → FieldKind
  | .int _ => .sint
  | .uint _ => .uns
  | .float _ => .f32
  | .double _ => .f64
  | .str _ => .text

/-- The closed tag set actually accepted by the code: the 18 tags of the
spec's table plus lowercase 'c' (a signed 2-byte integer), which the spec
omits. -/
def closedTagSet : List Char :=
  ['b', 'h', 'c', 'i', 'L', 'e', 'q', 'B', 'M', 'H', 'C', 'I', 'E', 'Q',
   'f', 'd', 'n', 'N', 'Z']

/-- The spec's width table (from the spec's words, extended with 'c' → 2),
to be compared against `field_length` and `parse_value`. -/
def specTableWidth : Char → Nat
  | 'b' => 1 | 'h' => 2 | 'c' => 2 | 'i' => 4 | 'L' => 4 | 'e' => 4 | 'q' => 8
  | 'B' => 1 | 'M' => 1 | 'H' => 2 | 'C' => 2 | 'I' => 4 | 'E' => 4 | 'Q' => 8
  | 'f' => 4 | 'd' => 8
  | 'n' => 4 | 'N' => 16 | 'Z' => 64
  | _ => 0

/-- The spec's kind table (from the spec's words, extended with 'c' as a
signed integer). -/
def specTableKind : Char → FieldKind
  | 'b' | 'h' | 'c' | 'i' | 'L' | 'e' | 'q' => .sint
  | 'B' | 'M' | 'H' | 'C' | 'I' | 'E' | 'Q' => .uns
  | 'f' => .f32 | 'd' => .f64
  | 'n' | 'N' | 'Z' => .text
  | _ => .text

deriving instance DecidableEq for Except

/-- C3 counterexample: lowercase 'c' lies outside the claim's closed tag
set (b,h,i,L,e,q,B,M,H,C,I,E,Q,f,d,n,N,Z), yet both the width function
and the decoder accept it as a signed 2-byte integer instead of
returning a fatal error. -/
theorem c3_counterexample :
    ('c' ∉ (['b', 'h', 'i', 'L', 'e', 'q', 'B', 'M', 'H', 'C', 'I', 'E', 'Q',
      'f', 'd', 'n', 'N', 'Z'] : List Char))
  ∧ field_length 'c' = .ok 2
  ∧ parse_value [0, 0] 0 'c' = .ok (.int 0, 2) :=
  ⟨by decide, rfl, rfl⟩

/-- C3 as amended: over the closed set extended with 'c' (signed, width
2), `field_length` and `parse_value` agree with the table; a buffer with
at least the declared width decodes successfully, consuming exactly that
width and producing the declared kind; every tag outside the set is a
fatal error for both functions. -/
theorem c3_amended_codec_table :
    (∀ c ∈ closedTagSet, field_length c = .ok (specTableWidth c))
  ∧ (∀ c ∈ closedTagSet, ∀ (src : List Nat) (pos : Nat),
      pos + specTableWidth c ≤ src.length →
      ∃ v, parse_value src pos c = .ok (v, pos + specTableWidth c)
        ∧ kindOf v = specTableKind c)
  ∧ (∀ c, c ∉ closedTagSet →
      field_length c = .error (.unexpectedChar c)
      ∧ ∀ (src : List Nat) (pos : Nat),
          parse_value src pos c = .error (.unknownFmtChar c)) := by
  refine ⟨by decide, ?_, ?_⟩
  · intro c hc src pos h
    fin_cases hc <;>
      (simp only [specTableWidth] at h ⊢
       simp only [parse_value, leVal, if_pos h]
       exact ⟨_, rfl, rfl⟩)
  · intro c hc
    constructor
    · unfold field_length
      split
      any_goals (simp [closedTagSet] at hc)
      rfl
    · intro src pos
      unfold parse_value
      split
      any_goals (simp [closedTagSet] at hc)
      rfl

/-- Witness for C3's amended table at concrete tags: 'b' in the table;
'Q' decoding eight zero bytes; 'x' rejected by both functions. -/
theorem c3_amended_codec_table_witness :
    field_length 'b' = .ok (specTableWidth 'b')
  ∧ (∃ v, parse_value [0, 0, 0, 0, 0, 0, 0, 0] 0 'Q' = .ok (v, 0 + specTableWidth 'Q')
      ∧ kindOf v = specTableKind 'Q')
  ∧ (field_length 'x' = .error (.unexpectedChar 'x')
      ∧ ∀ (src : List Nat) (pos : Nat),
          parse_value src pos 'x' = .error (.unknownFmtChar 'x')) :=
  ⟨c3_amended_codec_table.1 'b' (by decide),
   c3_amended_codec_table.2.1 'Q' (by decide) [0, 0, 0, 0, 0, 0, 0, 0] 0 (by decide),
   c3_amended_codec_table.2.2 'x' (by decide)⟩

/-- C4: a definition whose label list ("A", one label) is shorter than
its format-tag string ("BB", two fields) is accepted, and decoding the
following complete data record reaches `definition.labels[idx]` with
`idx = 1` out of range — the indexing panic the claim rules out
(reader.rs line 215). -/
theorem c4_short_labels_index_out_of_range :
    (readN shortLabelsFile ReaderState.init 2).2 =
      [.definition ⟨⟨2, 9, "AB", "BB", "A"⟩, ["A"]⟩, .indexOutOfRange] := by
  decide

/-- C5 counterexample: a source whose first bytes do not match the
`A3 95` marker — a framing fault with five bytes remaining, not an
exhaustion at the frame boundary — still yields the `Eof` outcome
instead of a propagated error (the catch-all arm at reader.rs 184-187). -/
theorem c5_counterexample :
    readPacketHeader [0, 0, 0, 0, 0] 0 = .error .badMagic
  ∧ (ArduReader.read [0, 0, 0, 0, 0] ReaderState.init).2 = .eof :=
  ⟨rfl, rfl⟩

/-- C5 as amended: every fault while reading the 2-byte marker and the
message-id byte — exhaustion at the frame boundary or any other header
fault such as a marker mismatch — is converted into the `Eof` outcome;
no header-read fault is propagated as an error. -/
theorem c5_amended_header_faults_are_eof :
    ∀ (src : List Nat) (st : ReaderState) (e : Err),
      readPacketHeader src st.pos = .error e →
      ArduReader.read src st = (st, .eof) := by
  intro src st e h
  simp [ArduReader.read, h]

/-- Witness for C5's amended rule at the bad-magic source. -/
theorem c5_amended_header_faults_are_eof_witness :
    ArduReader.read [0, 0, 0, 0, 0] ReaderState.init = (ReaderState.init, .eof) :=
  c5_amended_header_faults_are_eof [0, 0, 0, 0, 0] ReaderState.init .badMagic rfl

end Reader

namespace Transformers

open Reader

/-! Embedding of `src/transformers.rs`.  Numeric state is kept in `ℚ`:
the f64 arithmetic of the source (divisions by 1.0e7 and comparisons with
the literals 0.1 and 0.01) is modeled by exact rational arithmetic, which
agrees with the source's comparisons on every latitude reachable from the
integer fields of a log.  Message payload serialization (`serde_json`)
and the geodetic/quaternion floating-point math inside payloads are
abstracted: a payload carries the exact inputs the source would
serialize or feed to `wgs84_to_enu`/`euler_to_quat`. -/

/-- The JSON-Schema document produced by `generate_json_schema`: an
object titled with the definition's display name whose properties are the
labels, all typed "number".  The serialized byte string is abstracted to
this structure. -/
structure GenSchema where
  title : String
  props : List String
  deriving DecidableEq, Repr

/-- Function `generate_json_schema` of transformers.rs. -/
def generate_json_schema (fmt : FmtPacket) (labels : List String) : GenSchema :=
  ⟨fmt.name, labels⟩

/-- The schema document attached to a message: the generic transformer's
generated document, or one of the two JSON string constants
`LOCATION_FIX_SCHEMA` / `FRAME_TRANSFORM_SCHEMA`. -/
inductive SchemaData
  | jsonDoc (s : GenSchema)
  | locationFix
  | frameTransform
  deriving DecidableEq, Repr

/-- A message payload, carrying exactly the data the source serializes:
the generic transformer's record object; the anchor and trace location
fixes; or a frame transform (timestamp split into seconds and
nanoseconds, and the inputs of `wgs84_to_enu` and `euler_to_quat`). -/
inductive Payload
  | record (obj : JObj)
  | anchor (lat lon alt : ℚ)
  | trace (lat lon alt : ℚ)
  | tf (sec nsec : Nat) (pos home att : ℚ × ℚ × ℚ)
  deriving DecidableEq, Repr

/-- Struct `TransformedMessage` of transformers.rs. -/
structure TransformedMessage where
  topic : String
  schema_name : String
  schema_encoding : String
  schema_data : SchemaData
  payload : Payload
  deriving DecidableEq, Repr

/-- Association-list lookup (`HashMap::get`). -/
def alookup {α β : Type} [DecidableEq α] (m : List (α × β)) (k : α) : Option β :=
  (List.find? (fun p => p.1 = k) m).map (·.2)

/-- Association-list insert with overwrite (`HashMap::insert`). -/
def ainsert {α β : Type} [DecidableEq α] (m : List (α × β)) (k : α) (v : β) :
    List (α × β) :=
  match m with
  | [] => [(k, v)]
  | p :: rest => if p.1 = k then (k, v) :: rest else p :: ainsert rest k v

theorem alookup_ainsert_self {α β : Type} [DecidableEq α] (m : List (α × β))
    (k : α) (v : β) :
    alookup (ainsert m k v) k = some v := by
  induction m with
  | nil => simp [ainsert, alookup, List.find?]
  | cons p rest ih =>
    by_cases h : p.1 = k
    · simp [ainsert, h, alookup, List.find?]
    · simpa [ainsert, h, alookup, List.find?] using ih

theorem alookup_ainsert_ne {α β : Type} [DecidableEq α] (m : List (α × β))
    (k k2 : α) (v : β)
    (h : k2 ≠ k) : alookup (ainsert m k v) k2 = alookup m k2 := by
  induction m with
  | nil =>
    simp only [ainsert, alookup, List.find?]
    rw [show (decide (k = k2)) = false by simp [Ne.symm h]]
  | cons p rest ih =>
    simp only [ainsert]
    by_cases hp : p.1 = k
    · rw [if_pos hp]
      simp only [alookup, List.find?]
      rw [show (decide (k = k2)) = false by simp [Ne.symm h],
          show (decide (p.1 = k2)) = false by simp [hp, Ne.symm h]]
    · rw [if_neg hp]
      simp only [alookup, List.find?]
      cases hdp : decide (p.1 = k2) with
      | true => simp
      | false => simpa [alookup] using ih

/-- Struct `GenericTransformer` of transformers.rs: the captured
`(display_name, schema)` entries keyed by type id. -/
structure GenericTransformer where
  schemas : List (Nat × (String × GenSchema))
  deriving DecidableEq, Repr

/-- Constructor `GenericTransformer::new`. -/
def GenericTransformer.new : GenericTransformer := ⟨[]⟩

/-- Method `GenericTransformer::check_registered_to_transform`: registers every
definition, regenerating the schema and overwriting the stored entry for
that type id. -/
def GenericTransformer.check_registered_to_transform (t : GenericTransformer)
    (d : ArduDefinition) : GenericTransformer × Bool :=
  (⟨ainsert t.schemas d.ardu_fmt.type_id
      (d.ardu_fmt.name, generate_json_schema d.ardu_fmt d.labels)⟩, true)

/-- Method `GenericTransformer::transform`: `none` models the `.unwrap()` panic
for an unregistered type id. -/
def GenericTransformer.transform (t : GenericTransformer) (m : ArduMessage) :
    Option (GenericTransformer × List TransformedMessage) :=
  match alookup t.schemas m.type_id with
  | none => none
  | some (name, schema) =>
    some (t, [⟨"/ardupilot/" ++ name, name, "jsonschema", .jsonDoc schema,
      .record m.json_obj⟩])

/-- The three definition names the fused transformer registers for. -/
def GPS : String := "GPS"

def ATT : String := "ATT"

def POS : String := "POS"

/-- Struct `FoxgloveFusedTransformer` of transformers.rs. -/
structure FoxgloveFusedTransformer where
  home : Option (ℚ × ℚ × ℚ)          -- Lat, Lon, Alt
  current_pos : ℚ × ℚ × ℚ            -- Lat, Lon, Alt
  current_att : ℚ × ℚ × ℚ            -- Roll, Pitch, Yaw (centi-degrees)
  has_seen_pos : Bool
  topic_map : List (Nat × String)
  deriving DecidableEq, Repr

/-- Constructor `FoxgloveFusedTransformer::new`. -/
def FoxgloveFusedTransformer.new : FoxgloveFusedTransformer :=
  ⟨none, (0, 0, 0), (0, 0, 0), false, []⟩

/-- Method `FoxgloveFusedTransformer::check_registered_to_transform`. -/
def FoxgloveFusedTransformer.check_registered_to_transform
    (t : FoxgloveFusedTransformer) (d : ArduDefinition) :
    FoxgloveFusedTransformer × Bool :=
  if d.ardu_fmt.name = GPS ∨ d.ardu_fmt.name = ATT ∨ d.ardu_fmt.name = POS then
    ({ t with topic_map := ainsert t.topic_map d.ardu_fmt.type_id d.ardu_fmt.name },
     true)
  else (t, false)

/-- Helper `json.get(k).and_then(|v| v.as_i64())` of transformers.rs. -/
def getInt (json : JObj) (k : String) : Option Int :=
  (jGet json k).bind JVal.asI64

/-- Helper `json.get(k).and_then(|v| v.as_f64())` of transformers.rs. -/
def getFlt (json : JObj) (k : String) : Option ℚ :=
  (jGet json k).bind JVal.asF64

/-- The latitude a position record yields (transformers.rs line 284):
`Lat` or `Latitude` as i64, defaulting to 0, divided by 1.0e7. -/
def latOfJson (json : JObj) : ℚ :=
  ((((getInt json "Lat").orElse (fun _ => getInt json "Latitude")).getD 0 : ℤ) : ℚ)
    / 10000000

/-- The longitude (transformers.rs line 285). -/
def lonOfJson (json : JObj) : ℚ :=
  ((((getInt json "Lng").orElse (fun _ => getInt json "Longitude")).getD 0 : ℤ) : ℚ)
    / 10000000

/-- The altitude before unit scaling (transformers.rs line 289). -/
def altOfJson (json : JObj) : ℚ :=
  ((getFlt json "Alt").orElse (fun _ => getFlt json "Altitude")).getD 0

/-- The anchor ("map origin") message (transformers.rs 296-308). -/
def anchorMsg (lat lon alt : ℚ) : TransformedMessage :=
  ⟨"/foxglove/map_origin", "foxglove.LocationFix", "jsonschema", .locationFix,
   .anchor lat lon alt⟩

/-- The continuously-updated trace message (transformers.rs 313-325). -/
def traceMsg (lat lon alt : ℚ) : TransformedMessage :=
  ⟨"/foxglove/gps", "foxglove.LocationFix", "jsonschema", .locationFix,
   .trace lat lon alt⟩

/-- The 3D frame-transform message (transformers.rs 348-362). -/
def tfMsg (ts : Nat) (pos home att : ℚ × ℚ × ℚ) : TransformedMessage :=
  ⟨"/foxglove/base_link_transform", "foxglove.FrameTransform", "jsonschema",
   .frameTransform, .tf (ts / 1000000000) (ts % 1000000000) pos home att⟩

/-- The position-ingestion block (transformers.rs 280-326): compute
lat/lon/alt, set `home` and emit the anchor exactly when no home exists
and `|lat| > 0.1`, update `current_pos`, and emit the trace message. -/
def ingestPosition (t : FoxgloveFusedTransformer) (topic_name : String)
    (json : JObj) : FoxgloveFusedTransformer × List TransformedMessage :=
  let lat := latOfJson json
  let lon := lonOfJson json
  let altitude_scale_factor : ℚ := if topic_name = GPS then 1 / 100 else 1
  let alt := altOfJson json * altitude_scale_factor
  let pr :=
    if t.home = none ∧ |lat| > 1 / 10 then
      ({ t with home := some (lat, lon, alt) }, [anchorMsg lat lon alt])
    else (t, ([] : List TransformedMessage))
  ({ pr.1 with current_pos := (lat, lon, alt) }, pr.2 ++ [traceMsg lat lon alt])

/-- The attitude-ingestion block (transformers.rs 328-331). -/
def ingestAttitude (t : FoxgloveFusedTransformer) (json : JObj) :
    FoxgloveFusedTransformer :=
  { t with current_att :=
      ((getFlt json "Roll").getD 0, (getFlt json "Pitch").getD 0,
       (getFlt json "Yaw").getD 0) }

/-- The body of `FoxgloveFusedTransformer::transform` after the GPS
suppression check (transformers.rs 272-365). -/
def transformBody (t : FoxgloveFusedTransformer) (topic_name : String)
    (msg : ArduMessage) : FoxgloveFusedTransformer × List TransformedMessage :=
  let t1 := if topic_name = POS then { t with has_seen_pos := true } else t
  let pr :=
    if topic_name = GPS ∨ topic_name = POS then
      ingestPosition t1 topic_name msg.json_obj
    else (t1, ([] : List TransformedMessage))
  let t3 := if topic_name = ATT then ingestAttitude pr.1 msg.json_obj else pr.1
  match t3.home with
  | some hm => (t3, pr.2 ++ [tfMsg msg.current_ts t3.current_pos hm t3.current_att])
  | none => (t3, pr.2)

/-- Method `FoxgloveFusedTransformer::transform`; `none` models the `.unwrap()`
panic for an unregistered type id (transformers.rs line 266). -/
def FoxgloveFusedTransformer.transform (t : FoxgloveFusedTransformer)
    (msg : ArduMessage) :
    Option (FoxgloveFusedTransformer × List TransformedMessage) :=
  match alookup t.topic_map msg.type_id with
  | none => none
  | some topic_name =>
    if topic_name = GPS ∧ t.has_seen_pos then some (t, [])
    else some (transformBody t topic_name msg)

/-- One event of a fused-transformer session: a new definition delivered
to `check_registered_to_transform`, or a data record delivered to
`transform` (the pipeline only delivers records of registered ids). -/
inductive FEvent
  | reg (d : ArduDefinition)
  | msg (m : ArduMessage)

/-- One session step. -/
def fstep (t : FoxgloveFusedTransformer) :
    FEvent → Option (FoxgloveFusedTransformer × List TransformedMessage)
  | .reg d => some ((t.check_registered_to_transform d).1, [])
  | .msg m => t.transform m

/-- A session run: thread the state through a list of events, collecting
each step's output (a `transform` panic aborts the run). -/
def frun (t : FoxgloveFusedTransformer) :
    List FEvent → Option (FoxgloveFusedTransformer × List (List TransformedMessage))
  | [] => some (t, [])
  | e :: es =>
    match fstep t e with
    | none => none
    | some (t1, out) =>
      match frun t1 es with
      | none => none
      | some (t2, outs) => some (t2, out :: outs)

theorem pos_ne_gps : POS ≠ GPS := by decide

theorem check_registered_preserves_seen (t : FoxgloveFusedTransformer)
    (d : ArduDefinition) :
    (t.check_registered_to_transform d).1.has_seen_pos = t.has_seen_pos := by
  unfold FoxgloveFusedTransformer.check_registered_to_transform
  split <;> rfl

theorem ingestPosition_seen (t : FoxgloveFusedTransformer) (tn : String) (json : JObj) :
    (ingestPosition t tn json).1.has_seen_pos = t.has_seen_pos := by
  simp only [ingestPosition]
  split <;> rfl

theorem ingestAttitude_seen (t : FoxgloveFusedTransformer) (json : JObj) :
    (ingestAttitude t json).has_seen_pos = t.has_seen_pos := rfl

theorem transformBody_seen (t : FoxgloveFusedTransformer) (tn : String)
    (msg : ArduMessage) :
    (transformBody t tn msg).1.has_seen_pos
      = (if tn = POS then true else t.has_seen_pos) := by
  have h3 : ∀ x : FoxgloveFusedTransformer,
      (if tn = ATT then ingestAttitude x msg.json_obj else x).has_seen_pos
        = x.has_seen_pos := by
    intro x; split <;> simp [ingestAttitude_seen]
  have h2 : ∀ x : FoxgloveFusedTransformer,
      ((if tn = GPS ∨ tn = POS then ingestPosition x tn msg.json_obj
        else (x, ([] : List TransformedMessage))).1).has_seen_pos
        = x.has_seen_pos := by
    intro x; split <;> simp [ingestPosition_seen]
  simp only [transformBody]
  split <;> simp only [h3, h2] <;> by_cases hp : tn = POS <;> simp [hp]

theorem transform_seen_mono (t t2 : FoxgloveFusedTransformer) (msg : ArduMessage)
    (out : List TransformedMessage)
    (h : t.transform msg = some (t2, out)) (hs : t.has_seen_pos = true) :
    t2.has_seen_pos = true := by
  cases hl : alookup t.topic_map msg.type_id with
  | none => simp [FoxgloveFusedTransformer.transform, hl] at h
  | some tn =>
    simp only [FoxgloveFusedTransformer.transform, hl] at h
    by_cases hsup : tn = GPS ∧ t.has_seen_pos = true
    · rw [if_pos hsup, Option.some.injEq] at h
      injection h with h1 h2
      rw [← h1]; exact hs
    · rw [if_neg hsup, Option.some.injEq] at h
      have h1 : t2 = (transformBody t tn msg).1 := by rw [h]
      rw [h1, transformBody_seen]
      split <;> simp [hs]

theorem transform_pos_sets_seen (t t2 : FoxgloveFusedTransformer) (msg : ArduMessage)
    (out : List TransformedMessage)
    (hl : alookup t.topic_map msg.type_id = some POS)
    (h : t.transform msg = some (t2, out)) :
    t2.has_seen_pos = true := by
  simp only [FoxgloveFusedTransformer.transform, hl] at h
  rw [if_neg (fun hc => pos_ne_gps hc.1), Option.some.injEq] at h
  have h1 : t2 = (transformBody t POS msg).1 := by rw [h]
  rw [h1, transformBody_seen]
  simp

theorem transform_gps_suppressed (t : FoxgloveFusedTransformer) (msg : ArduMessage)
    (hl : alookup t.topic_map msg.type_id = some GPS)
    (hs : t.has_seen_pos = true) :
    t.transform msg = some (t, []) := by
  simp [FoxgloveFusedTransformer.transform, hl, hs]

theorem fstep_seen_mono (t t2 : FoxgloveFusedTransformer) (e : FEvent)
    (out : List TransformedMessage)
    (h : fstep t e = some (t2, out)) (hs : t.has_seen_pos = true) :
    t2.has_seen_pos = true := by
  cases e with
  | reg d =>
    simp only [fstep, Option.some.injEq] at h
    injection h with h1 h2
    rw [← h1, check_registered_preserves_seen]; exact hs
  | msg m => exact transform_seen_mono t t2 m out h hs

theorem frun_seen_mono (evs : List FEvent) :
    ∀ (t t2 : FoxgloveFusedTransformer) (outs : List (List TransformedMessage)),
      frun t evs = some (t2, outs) → t.has_seen_pos = true →
      t2.has_seen_pos = true := by
  induction evs with
  | nil => intro t t2 outs h hs; simp [frun] at h; rw [← h.1]; exact hs
  | cons e es ih =>
    intro t t2 outs h hs
    cases hstep : fstep t e with
    | none => simp [frun, hstep] at h
    | some pr =>
      obtain ⟨t1, out1⟩ := pr
      simp only [frun, hstep] at h
      cases hrun : frun t1 es with
      | none => rw [hrun] at h; exact absurd h (by simp)
      | some pr2 =>
        obtain ⟨t3, outs3⟩ := pr2
        rw [hrun] at h
        simp only [Option.some.injEq, Prod.mk.injEq] at h
        rw [← h.1]
        exact ih t1 t3 outs3 hrun (fstep_seen_mono t t1 e out1 hstep hs)


/-- C6: in a fused-transformer session, once a POS-classified record has
been transformed, every subsequently transformed GPS-classified record of
the same session produces an empty output sequence (transformers.rs
268-274: the POS branch latches `has_seen_pos`, which is never cleared,
and a GPS record with the latch set returns `Ok(vec![])`). -/
theorem c6_pos_suppresses_gps :
    ∀ (pre mid : List FEvent) (m m2 : ArduMessage)
      (t1 t2 t3 t4 : FoxgloveFusedTransformer)
      (outsPre outsMid : List (List TransformedMessage))
      (outM outM2 : List TransformedMessage),
      frun FoxgloveFusedTransformer.new pre = some (t1, outsPre) →
      alookup t1.topic_map m.type_id = some POS →
      t1.transform m = some (t2, outM) →
      frun t2 mid = some (t3, outsMid) →
      alookup t3.topic_map m2.type_id = some GPS →
      t3.transform m2 = some (t4, outM2) →
      outM2 = [] := by
  intro pre mid m m2 t1 t2 t3 t4 outsPre outsMid outM outM2 hpre hl1 htr1 hmid hl2 htr2
  have hs2 : t2.has_seen_pos = true := transform_pos_sets_seen t1 t2 m outM hl1 htr1
  have hs3 : t3.has_seen_pos = true := frun_seen_mono mid t2 t3 outsMid hmid hs2
  have hgps := transform_gps_suppressed t3 m2 hl2 hs3
  rw [hgps, Option.some.injEq] at htr2
  injection htr2 with h1 h2
  exact h2.symm

/-- Witness for C6: a session registering POS (type 10) and GPS
(type 11), transforming a POS record and then a GPS record, whose output
is empty. -/
theorem c6_pos_suppresses_gps_witness :
    frun FoxgloveFusedTransformer.new
        [.reg ⟨⟨10, 0, "POS", "", ""⟩, [""]⟩, .reg ⟨⟨11, 0, "GPS", "", ""⟩, [""]⟩]
      = some (⟨none, (0, 0, 0), (0, 0, 0), false, [(10, "POS"), (11, "GPS")]⟩, [[], []])
  ∧ FoxgloveFusedTransformer.transform
        ⟨none, (0, 0, 0), (0, 0, 0), false, [(10, "POS"), (11, "GPS")]⟩ ⟨10, 5, []⟩
      = some (⟨none, (0, 0, 0), (0, 0, 0), true, [(10, "POS"), (11, "GPS")]⟩,
              [traceMsg 0 0 0])
  ∧ FoxgloveFusedTransformer.transform
        ⟨none, (0, 0, 0), (0, 0, 0), true, [(10, "POS"), (11, "GPS")]⟩ ⟨11, 6, []⟩
      = some (⟨none, (0, 0, 0), (0, 0, 0), true, [(10, "POS"), (11, "GPS")]⟩, [])
  ∧ ([] : List TransformedMessage) = [] :=
  ⟨by with_unfolding_all decide, by with_unfolding_all decide, by with_unfolding_all decide,
   c6_pos_suppresses_gps
     [.reg ⟨⟨10, 0, "POS", "", ""⟩, [""]⟩, .reg ⟨⟨11, 0, "GPS", "", ""⟩, [""]⟩] []
     ⟨10, 5, []⟩ ⟨11, 6, []⟩
     ⟨none, (0, 0, 0), (0, 0, 0), false, [(10, "POS"), (11, "GPS")]⟩
     ⟨none, (0, 0, 0), (0, 0, 0), true, [(10, "POS"), (11, "GPS")]⟩
     ⟨none, (0, 0, 0), (0, 0, 0), true, [(10, "POS"), (11, "GPS")]⟩
     ⟨none, (0, 0, 0), (0, 0, 0), true, [(10, "POS"), (11, "GPS")]⟩
     [[], []] [] [traceMsg 0 0 0] []
     (by with_unfolding_all decide) (by with_unfolding_all decide)
     (by with_unfolding_all decide) (by with_unfolding_all decide)
     (by with_unfolding_all decide) (by with_unfolding_all decide)⟩

/-- C9 counterexample: registering type id 3 first as ("AAA", labels X,Y)
and then as ("BBB", label Z) leaves the stored entry equal to the second
registration's — the `HashMap::insert` at transformers.rs 51-54 runs on
every call and overwrites, so the first registration's
`(display_name, schema_bytes)` entry is not kept. -/
theorem c9_counterexample :
    alookup (GenericTransformer.check_registered_to_transform
        (GenericTransformer.check_registered_to_transform GenericTransformer.new
          ⟨⟨3, 0, "AAA", "ff", "X,Y"⟩, ["X", "Y"]⟩).1
        ⟨⟨3, 0, "BBB", "f", "Z"⟩, ["Z"]⟩).1.schemas 3
      = some ("BBB", ⟨"BBB", ["Z"]⟩)
  ∧ (("BBB", (⟨"BBB", ["Z"]⟩ : GenSchema)) ≠ ("AAA", (⟨"AAA", ["X", "Y"]⟩ : GenSchema))) :=
  ⟨rfl, by decide⟩

/-- C9 as amended: the generic transformer regenerates the schema on
every registration and stores it with overwrite semantics — after any
registration the entry for that type id is the just-registered
definition's (display name, generated schema), entries of other type ids
are untouched, and the registration predicate returns true
unconditionally. -/
theorem c9_amended_last_registration_wins :
    ∀ (t : GenericTransformer) (d : ArduDefinition),
      (t.check_registered_to_transform d).2 = true
      ∧ alookup (t.check_registered_to_transform d).1.schemas d.ardu_fmt.type_id
          = some (d.ardu_fmt.name, generate_json_schema d.ardu_fmt d.labels)
      ∧ ∀ k, k ≠ d.ardu_fmt.type_id →
          alookup (t.check_registered_to_transform d).1.schemas k
            = alookup t.schemas k := by
  intro t d
  exact ⟨rfl, alookup_ainsert_self .., fun k hk => alookup_ainsert_ne _ _ _ _ hk⟩

/-- Witness for C9's amended statement at a concrete re-registration. -/
theorem c9_amended_last_registration_wins_witness :
    ((GenericTransformer.new.check_registered_to_transform
        ⟨⟨3, 0, "BBB", "f", "Z"⟩, ["Z"]⟩).2 = true)
  ∧ alookup (GenericTransformer.new.check_registered_to_transform
        ⟨⟨3, 0, "BBB", "f", "Z"⟩, ["Z"]⟩).1.schemas 3
      = some ("BBB", generate_json_schema ⟨3, 0, "BBB", "f", "Z"⟩ ["Z"])
  ∧ alookup (GenericTransformer.new.check_registered_to_transform
        ⟨⟨3, 0, "BBB", "f", "Z"⟩, ["Z"]⟩).1.schemas 4
      = alookup GenericTransformer.new.schemas 4 :=
  ⟨(c9_amended_last_registration_wins GenericTransformer.new
      ⟨⟨3, 0, "BBB", "f", "Z"⟩, ["Z"]⟩).1,
   (c9_amended_last_registration_wins GenericTransformer.new
      ⟨⟨3, 0, "BBB", "f", "Z"⟩, ["Z"]⟩).2.1,
   (c9_amended_last_registration_wins GenericTransformer.new
      ⟨⟨3, 0, "BBB", "f", "Z"⟩, ["Z"]⟩).2.2 4 (by decide)⟩

/-- Number of world-anchor ("map origin") messages in an output list. -/
def countAnchor (out : List TransformedMessage) : Nat :=
  (out.filter (fun mm => mm.topic = "/foxglove/map_origin")).length

/-- Total number of anchor messages over a session's outputs. -/
def countAnchorAll (outs : List (List TransformedMessage)) : Nat :=
  (outs.map countAnchor).sum

theorem countAnchor_nil : countAnchor [] = 0 := rfl

theorem countAnchor_cons_anchor (lat lon alt : ℚ) (rest : List TransformedMessage) :
    countAnchor (anchorMsg lat lon alt :: rest) = 1 + countAnchor rest := by
  simp [countAnchor, anchorMsg, List.filter_cons, Nat.add_comm]

theorem countAnchor_cons_trace (lat lon alt : ℚ) (rest : List TransformedMessage) :
    countAnchor (traceMsg lat lon alt :: rest) = countAnchor rest := by
  simp [countAnchor, traceMsg, List.filter_cons]

theorem countAnchor_cons_tf (ts : Nat) (p hm att : ℚ × ℚ × ℚ)
    (rest : List TransformedMessage) :
    countAnchor (tfMsg ts p hm att :: rest) = countAnchor rest := by
  simp [countAnchor, tfMsg, List.filter_cons]

theorem countAnchor_append (a b : List TransformedMessage) :
    countAnchor (a ++ b) = countAnchor a + countAnchor b := by
  simp [countAnchor, List.filter_append]


theorem ingestPosition_anchor (t : FoxgloveFusedTransformer) (tn : String)
    (json : JObj) :
    countAnchor (ingestPosition t tn json).2
      = (if t.home = none ∧ |latOfJson json| > 1 / 10 then 1 else 0)
    ∧ ((ingestPosition t tn json).1.home = none
        ↔ (t.home = none ∧ ¬(|latOfJson json| > 1 / 10))) := by
  simp only [ingestPosition]
  by_cases hc : t.home = none ∧ |latOfJson json| > 1 / 10
  · rw [if_pos hc, if_pos hc]
    constructor
    · simp [countAnchor_cons_anchor, countAnchor_cons_trace, countAnchor_nil]
    · constructor
      · intro h; simp at h
      · rintro ⟨h1, h2⟩; exact absurd hc.2 h2
  · rw [if_neg hc, if_neg hc]
    constructor
    · simp [countAnchor_cons_trace, countAnchor_nil]
    · constructor
      · intro h
        exact ⟨h, fun hlat => hc ⟨h, hlat⟩⟩
      · rintro ⟨h1, h2⟩; exact h1


theorem transformBody_anchor (t : FoxgloveFusedTransformer) (tn : String)
    (msg : ArduMessage) :
    countAnchor (transformBody t tn msg).2
      = (if (tn = GPS ∨ tn = POS) ∧ t.home = none ∧ |latOfJson msg.json_obj| > 1 / 10
         then 1 else 0)
    ∧ ((transformBody t tn msg).1.home = none
        ↔ (t.home = none
            ∧ ¬((tn = GPS ∨ tn = POS) ∧ |latOfJson msg.json_obj| > 1 / 10))) := by
  simp only [transformBody]
  set t1 := if tn = POS then { t with has_seen_pos := true } else t with ht1def
  have ht1h : t1.home = t.home := by rw [ht1def]; split <;> rfl
  by_cases hg : tn = GPS ∨ tn = POS
  · rw [if_pos hg]
    set pr := ingestPosition t1 tn msg.json_obj with hprdef
    obtain ⟨hcount, hhome⟩ := ingestPosition_anchor t1 tn msg.json_obj
    rw [ht1h] at hcount hhome
    rw [← hprdef] at hcount hhome
    set t3 := if tn = ATT then ingestAttitude pr.1 msg.json_obj else pr.1 with ht3def
    have ht3h : t3.home = pr.1.home := by rw [ht3def]; split <;> rfl
    have hfst : (match t3.home with
        | some hm => (t3, pr.2 ++ [tfMsg msg.current_ts t3.current_pos hm t3.current_att])
        | none => (t3, pr.2)).1 = t3 := by
      cases t3.home <;> rfl
    have hsnd : countAnchor (match t3.home with
        | some hm => (t3, pr.2 ++ [tfMsg msg.current_ts t3.current_pos hm t3.current_att])
        | none => (t3, pr.2)).2 = countAnchor pr.2 := by
      cases t3.home <;>
        simp [countAnchor_append, countAnchor_cons_tf, countAnchor_nil]
    constructor
    · rw [hsnd, hcount]
      simp [hg]
    · rw [hfst, ht3h, hhome]
      simp [hg]
  · rw [if_neg hg]
    set t3 := if tn = ATT then ingestAttitude t1 msg.json_obj else t1 with ht3def
    have ht3h : t3.home = t.home := by
      rw [ht3def]; split <;> simp [ingestAttitude, ht1h]
    have hfst : (match t3.home with
        | some hm => (t3, ([] : List TransformedMessage)
            ++ [tfMsg msg.current_ts t3.current_pos hm t3.current_att])
        | none => (t3, ([] : List TransformedMessage))).1 = t3 := by
      cases t3.home <;> rfl
    have hsnd : countAnchor (match t3.home with
        | some hm => (t3, ([] : List TransformedMessage)
            ++ [tfMsg msg.current_ts t3.current_pos hm t3.current_att])
        | none => (t3, ([] : List TransformedMessage))).2 = 0 := by
      cases t3.home <;>
        simp [countAnchor_append, countAnchor_cons_tf, countAnchor_nil]
    constructor
    · rw [hsnd]
      simp [hg]
    · rw [hfst, ht3h]
      simp [hg]


/-- A record is a position observation when its topic lookup is GPS or
POS and it is not suppressed (a GPS record after `has_seen_pos` returns
early and observes nothing). -/
def observesPosition (t : FoxgloveFusedTransformer) (m : ArduMessage) : Bool :=
  match alookup t.topic_map m.type_id with
  | some tn => (decide (tn = GPS) || decide (tn = POS))
      && !(decide (tn = GPS) && t.has_seen_pos)
  | none => false

/-- The exact condition under which a step emits the anchor and sets
`home`: a position observation while no home is set whose latitude
magnitude exceeds 0.1 degrees (transformers.rs line 292). -/
def anchorTrigger (t : FoxgloveFusedTransformer) : FEvent → Bool
  | .reg _ => false
  | .msg m => observesPosition t m && t.home.isNone
      && decide (|latOfJson m.json_obj| > 1 / 10)

theorem transform_anchor (t t2 : FoxgloveFusedTransformer) (m : ArduMessage)
    (out : List TransformedMessage)
    (h : t.transform m = some (t2, out)) :
    countAnchor out = (if anchorTrigger t (.msg m) then 1 else 0)
    ∧ (t2.home = none ↔ (t.home = none ∧ anchorTrigger t (.msg m) = false)) := by
  cases hl : alookup t.topic_map m.type_id with
  | none => simp [FoxgloveFusedTransformer.transform, hl] at h
  | some tn =>
    simp only [FoxgloveFusedTransformer.transform, hl] at h
    by_cases hsup : tn = GPS ∧ t.has_seen_pos = true
    · rw [if_pos hsup, Option.some.injEq] at h
      injection h with h1 h2
      have htrig : anchorTrigger t (.msg m) = false := by
        simp [anchorTrigger, observesPosition, hl, hsup.1, hsup.2]
      rw [← h1, ← h2, htrig]
      exact ⟨rfl, by simp⟩
    · have hgs : (decide (tn = GPS) && t.has_seen_pos) = false := by
        cases hgp : decide (tn = GPS) with
        | false => simp
        | true =>
          cases hsn : t.has_seen_pos with
          | false => simp
          | true => exact absurd ⟨of_decide_eq_true hgp, hsn⟩ hsup
      have hobs : observesPosition t m = (decide (tn = GPS) || decide (tn = POS)) := by
        simp [observesPosition, hl, hgs]
      have hbridge : (anchorTrigger t (.msg m) = true)
          ↔ ((tn = GPS ∨ tn = POS) ∧ t.home = none
              ∧ |latOfJson m.json_obj| > 1 / 10) := by
        simp [anchorTrigger, hobs, Bool.and_eq_true, Bool.or_eq_true,
          decide_eq_true_eq, Option.isNone_iff_eq_none, and_assoc]
      rw [if_neg hsup, Option.some.injEq] at h
      have h2eq : t2 = (transformBody t tn m).1 := by rw [h]
      have houteq : out = (transformBody t tn m).2 := by rw [h]
      obtain ⟨hc, hh⟩ := transformBody_anchor t tn m
      constructor
      · rw [houteq, hc]
        by_cases hC : (tn = GPS ∨ tn = POS) ∧ t.home = none
            ∧ |latOfJson m.json_obj| > 1 / 10
        · rw [if_pos hC, if_pos (hbridge.mpr hC)]
        · rw [if_neg hC, if_neg (fun htr => hC (hbridge.mp htr))]
      · rw [h2eq, hh]
        constructor
        · rintro ⟨h1, h2⟩
          refine ⟨h1, ?_⟩
          cases htr : anchorTrigger t (.msg m) with
          | false => rfl
          | true =>
            obtain ⟨hA, hB, hC2⟩ := hbridge.mp htr
            exact absurd ⟨hA, hC2⟩ h2
        · rintro ⟨h1, h2⟩
          refine ⟨h1, ?_⟩
          rintro ⟨hA, hC2⟩
          have : anchorTrigger t (.msg m) = true := hbridge.mpr ⟨hA, h1, hC2⟩
          rw [this] at h2
          exact Bool.noConfusion h2


theorem fstep_anchor (t t2 : FoxgloveFusedTransformer) (e : FEvent)
    (out : List TransformedMessage)
    (h : fstep t e = some (t2, out)) :
    countAnchor out = (if anchorTrigger t e then 1 else 0)
    ∧ (t2.home = none ↔ (t.home = none ∧ anchorTrigger t e = false)) := by
  cases e with
  | reg d =>
    simp only [fstep, Option.some.injEq] at h
    injection h with h1 h2
    have hh : (t.check_registered_to_transform d).1.home = t.home := by
      unfold FoxgloveFusedTransformer.check_registered_to_transform
      split <;> rfl
    rw [← h1, ← h2]
    exact ⟨rfl, by rw [hh]; simp [anchorTrigger]⟩
  | msg m => exact transform_anchor t t2 m out h

theorem anchorTrigger_needs_no_home (t : FoxgloveFusedTransformer) (e : FEvent)
    (htr : anchorTrigger t e = true) : t.home = none := by
  cases e with
  | reg d => simp [anchorTrigger] at htr
  | msg m =>
    simp only [anchorTrigger, Bool.and_eq_true, Option.isNone_iff_eq_none] at htr
    exact htr.1.2

theorem frun_anchor_some (evs : List FEvent) :
    ∀ (t t2 : FoxgloveFusedTransformer) (outs : List (List TransformedMessage)),
      frun t evs = some (t2, outs) → t.home ≠ none →
      countAnchorAll outs = 0 ∧ t2.home ≠ none := by
  induction evs with
  | nil =>
    intro t t2 outs h hs
    simp [frun] at h
    rw [← h.1, h.2]
    exact ⟨rfl, hs⟩
  | cons e es ih =>
    intro t t2 outs h hs
    cases hstep : fstep t e with
    | none => simp [frun, hstep] at h
    | some pr =>
      obtain ⟨t1, out1⟩ := pr
      simp only [frun, hstep] at h
      cases hrun : frun t1 es with
      | none => rw [hrun] at h; exact absurd h (by simp)
      | some pr2 =>
        obtain ⟨t3, outs3⟩ := pr2
        rw [hrun] at h
        simp only [Option.some.injEq, Prod.mk.injEq] at h
        obtain ⟨ht2, houts⟩ := h
        obtain ⟨hc, hhome⟩ := fstep_anchor t t1 e out1 hstep
        have htrig : anchorTrigger t e = false := by
          cases htr : anchorTrigger t e with
          | false => rfl
          | true => exact absurd (anchorTrigger_needs_no_home t e htr) hs
        have h1home : t1.home ≠ none := by
          intro hnone
          exact hs (hhome.mp hnone).1
        have hcount1 : countAnchor out1 = 0 := by rw [hc, htrig]; rfl
        obtain ⟨hrest, hfinal⟩ := ih t1 t3 outs3 hrun h1home
        rw [← houts, ← ht2]
        refine ⟨?_, hfinal⟩
        simp [countAnchorAll] at hrest ⊢
        simp [hcount1, hrest]

theorem frun_anchor_none (evs : List FEvent) :
    ∀ (t t2 : FoxgloveFusedTransformer) (outs : List (List TransformedMessage)),
      frun t evs = some (t2, outs) → t.home = none →
      countAnchorAll outs ≤ 1 ∧ (t2.home = none ↔ countAnchorAll outs = 0) := by
  induction evs with
  | nil =>
    intro t t2 outs h hs
    simp [frun] at h
    rw [← h.1, h.2]
    simp [countAnchorAll, hs]
  | cons e es ih =>
    intro t t2 outs h hs
    cases hstep : fstep t e with
    | none => simp [frun, hstep] at h
    | some pr =>
      obtain ⟨t1, out1⟩ := pr
      simp only [frun, hstep] at h
      cases hrun : frun t1 es with
      | none => rw [hrun] at h; exact absurd h (by simp)
      | some pr2 =>
        obtain ⟨t3, outs3⟩ := pr2
        rw [hrun] at h
        simp only [Option.some.injEq, Prod.mk.injEq] at h
        obtain ⟨ht2, houts⟩ := h
        obtain ⟨hc, hhome⟩ := fstep_anchor t t1 e out1 hstep
        cases htr : anchorTrigger t e with
        | false =>
          have hcount1 : countAnchor out1 = 0 := by rw [hc, htr]; rfl
          have h1home : t1.home = none := hhome.mpr ⟨hs, htr⟩
          obtain ⟨hle, hiff⟩ := ih t1 t3 outs3 hrun h1home
          rw [← houts, ← ht2]
          constructor
          · simp only [countAnchorAll, List.map_cons, List.sum_cons, hcount1]
            simpa [countAnchorAll] using hle
          · simp only [countAnchorAll, List.map_cons, List.sum_cons, hcount1]
            simpa [countAnchorAll] using hiff
        | true =>
          have hcount1 : countAnchor out1 = 1 := by rw [hc, htr]; rfl
          have h1home : t1.home ≠ none := by
            intro hnone
            have := (hhome.mp hnone).2
            rw [htr] at this
            exact Bool.noConfusion this
          obtain ⟨hrest, hfinal⟩ := frun_anchor_some es t1 t3 outs3 hrun h1home
          rw [← houts, ← ht2]
          constructor
          · simp only [countAnchorAll, List.map_cons, List.sum_cons, hcount1]
            simp [countAnchorAll] at hrest
            simp [hrest]
          · simp only [countAnchorAll, List.map_cons, List.sum_cons, hcount1]
            simp [countAnchorAll] at hrest
            simp [hrest, hfinal]


/-- C7: per transformed record, the anchor message is emitted exactly
when the record is a non-suppressed position observation, no home is set
yet, and |lat| > 0.1 — and `home` transitions from unset to set exactly
then (so observations with |lat| ≤ 0.1 never set home or emit the
anchor, and once home is set it stays set and no further anchor is
emitted); over a whole session from a fresh transformer the anchor is
emitted at most once, and home is set at the end iff it was emitted
exactly once. -/
theorem c7_anchor_emitted_once :
    (∀ (t t2 : FoxgloveFusedTransformer) (m : ArduMessage)
        (out : List TransformedMessage),
      t.transform m = some (t2, out) →
      countAnchor out = (if anchorTrigger t (.msg m) then 1 else 0)
      ∧ (t2.home = none ↔ (t.home = none ∧ anchorTrigger t (.msg m) = false)))
  ∧ (∀ (evs : List FEvent) (t2 : FoxgloveFusedTransformer)
        (outs : List (List TransformedMessage)),
      frun FoxgloveFusedTransformer.new evs = some (t2, outs) →
      countAnchorAll outs ≤ 1 ∧ (t2.home.isSome ↔ countAnchorAll outs = 1)) := by
  constructor
  · exact transform_anchor
  · intro evs t2 outs h
    obtain ⟨hle, hiff⟩ := frun_anchor_none evs FoxgloveFusedTransformer.new t2 outs h rfl
    refine ⟨hle, ?_, ?_⟩
    · intro hsome
      by_contra hne
      have h0 : countAnchorAll outs = 0 := by omega
      rw [hiff.mpr h0] at hsome
      simp at hsome
    · intro h1
      cases hh : t2.home with
      | some v => simp
      | none =>
        have h0 := hiff.mp hh
        omega

/-- Witness for C7: a session registering POS and transforming one POS
record at latitude 47 degrees, which emits the anchor once and sets
home. -/
theorem c7_anchor_emitted_once_witness :
    (countAnchor [anchorMsg 47 0 0, traceMsg 47 0 0, tfMsg 5 (47, 0, 0) (47, 0, 0) (0, 0, 0)]
        = (if anchorTrigger ⟨none, (0, 0, 0), (0, 0, 0), false, [(10, "POS")]⟩
              (.msg ⟨10, 5, [("Lat", .int 470000000)]⟩) then 1 else 0)
      ∧ ((⟨some (47, 0, 0), (47, 0, 0), (0, 0, 0), true,
            [(10, "POS")]⟩ : FoxgloveFusedTransformer).home = none
          ↔ ((⟨none, (0, 0, 0), (0, 0, 0), false,
                [(10, "POS")]⟩ : FoxgloveFusedTransformer).home = none
              ∧ anchorTrigger ⟨none, (0, 0, 0), (0, 0, 0), false, [(10, "POS")]⟩
                  (.msg ⟨10, 5, [("Lat", .int 470000000)]⟩) = false)))
  ∧ (countAnchorAll [[],
        [anchorMsg 47 0 0, traceMsg 47 0 0, tfMsg 5 (47, 0, 0) (47, 0, 0) (0, 0, 0)]] ≤ 1
      ∧ ((⟨some (47, 0, 0), (47, 0, 0), (0, 0, 0), true,
            [(10, "POS")]⟩ : FoxgloveFusedTransformer).home.isSome
          ↔ countAnchorAll [[],
              [anchorMsg 47 0 0, traceMsg 47 0 0,
               tfMsg 5 (47, 0, 0) (47, 0, 0) (0, 0, 0)]] = 1)) :=
  ⟨c7_anchor_emitted_once.1
     ⟨none, (0, 0, 0), (0, 0, 0), false, [(10, "POS")]⟩
     ⟨some (47, 0, 0), (47, 0, 0), (0, 0, 0), true, [(10, "POS")]⟩
     ⟨10, 5, [("Lat", .int 470000000)]⟩
     [anchorMsg 47 0 0, traceMsg 47 0 0, tfMsg 5 (47, 0, 0) (47, 0, 0) (0, 0, 0)]
     (by with_unfolding_all decide),
   c7_anchor_emitted_once.2
     [.reg ⟨⟨10, 0, "POS", "", ""⟩, [""]⟩, .msg ⟨10, 5, [("Lat", .int 470000000)]⟩]
     ⟨some (47, 0, 0), (47, 0, 0), (0, 0, 0), true, [(10, "POS")]⟩
     [[], [anchorMsg 47 0 0, traceMsg 47 0 0, tfMsg 5 (47, 0, 0) (47, 0, 0) (0, 0, 0)]]
     (by with_unfolding_all decide)⟩
end Transformers

namespace Pipeline

open Transformers (alookup ainsert alookup_ainsert_self alookup_ainsert_ne)

/-!  Embedding of the channel/schema registry and message-writing loop of
`src/pipeline.rs` (lines 60-102).  The external mcap `Writer` is the
spec's "external collaborator"; its three operations are recorded in an
append-only log and its id allocation is modeled as fresh increasing
ids.  `sequence` is a u32 and `channel_info.sequence += 1` wraps, so the
increment carries an explicit `% 2^32`. -/

/-- An output message as the write loop consumes it: the five fields of
a serialized `TransformedMessage`. -/
structure OutMsg where
  topic : String
  schema_name : String
  schema_encoding : String
  schema_data : List Nat
  payload : List Nat
  deriving DecidableEq, Repr

/-- Struct `McapChannelInfo` of pipeline.rs. -/
structure McapChannelInfo where
  channel_id : Nat
  sequence : Nat
  deriving DecidableEq, Repr

/-- Modelled from the spec: one effect of the external mcap writer
(schema registration, channel registration, or message append — spec
section 6, "Output"). -/
inductive WriterOp
  | addSchema (id : Nat) (name encoding : String) (data : List Nat)
  | addChannel (id : Nat) (schemaId : Nat) (topic : String) (messageEncoding : String)
  | writeMessage (channelId sequence logTime publishTime : Nat) (payload : List Nat)
  deriving DecidableEq, Repr

/-- Modelled from the spec: the external writer's state — the log of
operations performed on it and the next fresh schema/channel ids. -/
structure WriterState where
  ops : List WriterOp
  nextSchemaId : Nat
  nextChannelId : Nat
  deriving DecidableEq, Repr

/-- The pipeline's registry state: `channel_map` keyed by
`(topic, schema_name)` plus the writer. -/
structure PipeState where
  channel_map : List ((String × String) × McapChannelInfo)
  writer : WriterState
  deriving DecidableEq, Repr

/-- Fresh state at the start of `process_ardupilot_file`. -/
def initPipe : PipeState := ⟨[], ⟨[], 0, 0⟩⟩

/-- The key of pipeline.rs line 65. -/
def keyOf (m : OutMsg) : String × String := (m.topic, m.schema_name)

/-- The body of the per-message write loop (pipeline.rs 64-102): if the
key is unknown, register a schema then a channel and insert a
`McapChannelInfo` with sequence 0; then write the message with the
stored sequence number and increment it (u32 wrap). -/
def writeStep (st : PipeState) (ts : Nat) (m : OutMsg) : PipeState :=
  let st1 :=
    if (alookup st.channel_map (keyOf m)).isNone then
      { channel_map := ainsert st.channel_map (keyOf m) ⟨st.writer.nextChannelId, 0⟩
      , writer :=
          { ops := st.writer.ops
              ++ [.addSchema st.writer.nextSchemaId m.schema_name m.schema_encoding
                    m.schema_data,
                  .addChannel st.writer.nextChannelId st.writer.nextSchemaId
                    m.topic "json"]
          , nextSchemaId := st.writer.nextSchemaId + 1
          , nextChannelId := st.writer.nextChannelId + 1 } }
    else st
  match alookup st1.channel_map (keyOf m) with
  | some info =>
      { channel_map := ainsert st1.channel_map (keyOf m)
          ⟨info.channel_id, (info.sequence + 1) % 2 ^ 32⟩
      , writer := { st1.writer with
          ops := st1.writer.ops
            ++ [.writeMessage info.channel_id info.sequence ts ts m.payload] } }
  | none => st1  -- unreachable: the key was inserted above (the source unwraps)

/-- Run the write loop over a list of (log-time, message) pairs, in
order. -/
def runWrites (st : PipeState) : List (Nat × OutMsg) → PipeState
  | [] => st
  | (ts, m) :: rest => runWrites (writeStep st ts m) rest

/-- Number of messages with key `k` in a list. -/
def count (k : String × String) (ms : List (Nat × OutMsg)) : Nat :=
  (ms.filter (fun p => keyOf p.2 = k)).length

/-- The sequence numbers of the messages appended to channel `cid`, in
log order. -/
def seqsOn (cid : Nat) (ops : List WriterOp) : List Nat :=
  ops.filterMap (fun op => match op with
    | .writeMessage c s _ _ _ => if c = cid then some s else none
    | _ => none)

/-- How many channel registrations carry id `cid`. -/
def chanRegs (cid : Nat) (ops : List WriterOp) : Nat :=
  (ops.filter (fun op => match op with
    | .addChannel c _ _ _ => c = cid
    | _ => false)).length

/-- How many schema registrations carry id `sid`. -/
def schemaRegs (sid : Nat) (ops : List WriterOp) : Nat :=
  (ops.filter (fun op => match op with
    | .addSchema s _ _ _ => s = sid
    | _ => false)).length

theorem seqsOn_append (c : Nat) (a b : List WriterOp) :
    seqsOn c (a ++ b) = seqsOn c a ++ seqsOn c b := by
  simp [seqsOn, List.filterMap_append]

theorem chanRegs_append (c : Nat) (a b : List WriterOp) :
    chanRegs c (a ++ b) = chanRegs c a + chanRegs c b := by
  simp [chanRegs, List.filter_append]

theorem schemaRegs_append (s : Nat) (a b : List WriterOp) :
    schemaRegs s (a ++ b) = schemaRegs s a + schemaRegs s b := by
  simp [schemaRegs, List.filter_append]

theorem seqsOn_write (c c2 s lt pt : Nat) (p : List Nat) :
    seqsOn c [.writeMessage c2 s lt pt p] = if c2 = c then [s] else [] := by
  by_cases h : c2 = c <;> simp [seqsOn, h]

theorem seqsOn_addSchema (c sid : Nat) (n e : String) (d : List Nat) :
    seqsOn c [.addSchema sid n e d] = [] := rfl

theorem seqsOn_addChannel (c cid sid : Nat) (t me : String) :
    seqsOn c [.addChannel cid sid t me] = [] := rfl

theorem chanRegs_addChannel (c cid sid : Nat) (t me : String) :
    chanRegs c [.addChannel cid sid t me] = if cid = c then 1 else 0 := by
  by_cases h : cid = c <;> simp [chanRegs, h]

theorem chanRegs_addSchema (c sid : Nat) (n e : String) (d : List Nat) :
    chanRegs c [.addSchema sid n e d] = 0 := rfl

theorem chanRegs_write (c c2 s lt pt : Nat) (p : List Nat) :
    chanRegs c [.writeMessage c2 s lt pt p] = 0 := rfl

theorem schemaRegs_addSchema (s sid : Nat) (n e : String) (d : List Nat) :
    schemaRegs s [.addSchema sid n e d] = if sid = s then 1 else 0 := by
  by_cases h : sid = s <;> simp [schemaRegs, h]

theorem schemaRegs_addChannel (s cid sid : Nat) (t me : String) :
    schemaRegs s [.addChannel cid sid t me] = 0 := rfl

theorem schemaRegs_write (s c2 sq lt pt : Nat) (p : List Nat) :
    schemaRegs s [.writeMessage c2 sq lt pt p] = 0 := rfl

theorem count_append (k : String × String) (a b : List (Nat × OutMsg)) :
    count k (a ++ b) = count k a + count k b := by
  simp [count, List.filter_append]

theorem count_single (k : String × String) (ts : Nat) (m : OutMsg) :
    count k [(ts, m)] = if keyOf m = k then 1 else 0 := by
  by_cases h : keyOf m = k <;> simp [count, h]

theorem writeStep_eq_registered (st : PipeState) (ts : Nat) (m : OutMsg)
    (info : McapChannelInfo)
    (hk : alookup st.channel_map (keyOf m) = some info) :
    writeStep st ts m =
      ⟨ainsert st.channel_map (keyOf m)
         ⟨info.channel_id, (info.sequence + 1) % 2 ^ 32⟩,
       ⟨st.writer.ops
          ++ [.writeMessage info.channel_id info.sequence ts ts m.payload],
        st.writer.nextSchemaId, st.writer.nextChannelId⟩⟩ := by
  simp [writeStep, hk]

theorem writeStep_eq_new (st : PipeState) (ts : Nat) (m : OutMsg)
    (hk : alookup st.channel_map (keyOf m) = none) :
    writeStep st ts m =
      ⟨ainsert (ainsert st.channel_map (keyOf m) ⟨st.writer.nextChannelId, 0⟩)
          (keyOf m) ⟨st.writer.nextChannelId, 1 % 2 ^ 32⟩,
       ⟨(st.writer.ops
          ++ [.addSchema st.writer.nextSchemaId m.schema_name m.schema_encoding
                m.schema_data,
              .addChannel st.writer.nextChannelId st.writer.nextSchemaId
                m.topic "json"])
          ++ [.writeMessage st.writer.nextChannelId 0 ts ts m.payload],
        st.writer.nextSchemaId + 1, st.writer.nextChannelId + 1⟩⟩ := by
  simp [writeStep, hk, alookup_ainsert_self]


/-- The registry invariant after processing `processed`: unregistered
keys have no messages; a registered key's entry carries the (wrapped)
message count as its sequence, its channel's logged sequence numbers are
`0, 1, ...` (mod `2^32`), its channel was registered exactly once right
after its schema, and its ids are below the writer's fresh ids; distinct
keys hold distinct channel ids; ids at or above the fresh counters are
untouched. -/
structure Inv (st : PipeState) (processed : List (Nat × OutMsg)) : Prop where
  absent : ∀ k, alookup st.channel_map k = none → count k processed = 0
  present : ∀ k info, alookup st.channel_map k = some info →
    0 < count k processed
    ∧ info.sequence = count k processed % 2 ^ 32
    ∧ seqsOn info.channel_id st.writer.ops
        = (List.range (count k processed)).map (· % 2 ^ 32)
    ∧ chanRegs info.channel_id st.writer.ops = 1
    ∧ info.channel_id < st.writer.nextChannelId
    ∧ ∃ sid enc data pre post,
        sid < st.writer.nextSchemaId
        ∧ schemaRegs sid st.writer.ops = 1
        ∧ st.writer.ops = pre ++ [.addSchema sid k.2 enc data,
            .addChannel info.channel_id sid k.1 "json"] ++ post
  distinct : ∀ k1 k2 i1 i2, alookup st.channel_map k1 = some i1 →
      alookup st.channel_map k2 = some i2 → k1 ≠ k2 →
      i1.channel_id ≠ i2.channel_id
  freshChan : ∀ c, st.writer.nextChannelId ≤ c →
      seqsOn c st.writer.ops = [] ∧ chanRegs c st.writer.ops = 0
  freshSchema : ∀ s, st.writer.nextSchemaId ≤ s → schemaRegs s st.writer.ops = 0

theorem inv_init : Inv initPipe [] := by
  refine ⟨?_, ?_, ?_, ?_, ?_⟩
  · intro k _; rfl
  · intro k info h; simp [initPipe, alookup] at h
  · intro k1 k2 i1 i2 h1 h2 _; simp [initPipe, alookup] at h1
  · intro c _; exact ⟨rfl, rfl⟩
  · intro s _; rfl

theorem writeStep_inv_registered (st : PipeState) (processed : List (Nat × OutMsg))
    (ts : Nat) (m : OutMsg) (info : McapChannelInfo)
    (hk : alookup st.channel_map (keyOf m) = some info)
    (H : Inv st processed) :
    Inv (writeStep st ts m) (processed ++ [(ts, m)]) := by
  rw [writeStep_eq_registered st ts m info hk]
  obtain ⟨hpos, hseq, hseqs, hregs, hlt, hschema⟩ := H.present (keyOf m) info hk
  have hcnt : ∀ k, count k (processed ++ [(ts, m)])
      = count k processed + (if keyOf m = k then 1 else 0) := fun k => by
    rw [count_append, count_single]
  refine ⟨?_, ?_, ?_, ?_, ?_⟩
  · -- absent
    intro k hlk
    by_cases hkk : k = keyOf m
    · rw [hkk, alookup_ainsert_self] at hlk; exact absurd hlk (by simp)
    · rw [alookup_ainsert_ne _ _ _ _ hkk] at hlk
      rw [hcnt, H.absent k hlk, if_neg (fun h => hkk h.symm)]
  · -- present
    intro k info2 hlk
    by_cases hkk : k = keyOf m
    · subst hkk
      rw [alookup_ainsert_self] at hlk
      have hinfo2 : info2 = ⟨info.channel_id, (info.sequence + 1) % 2 ^ 32⟩ := by
        injection hlk with h; exact h.symm
      subst hinfo2
      rw [hcnt, if_pos rfl]
      refine ⟨by omega, ?_, ?_, ?_, ?_, ?_⟩
      · simp only [hseq]
        exact Nat.mod_add_mod (count (keyOf m) processed) (2 ^ 32) 1
      · simp only [seqsOn_append, hseqs, seqsOn_write, if_pos rfl]
        rw [List.range_succ]
        simp [hseq]
      · simp only [chanRegs_append, hregs, chanRegs_write]
      · exact hlt
      · obtain ⟨sid, enc, data, pre, post, hsidlt, hsregs, hdecomp⟩ := hschema
        refine ⟨sid, enc, data, pre,
          post ++ [.writeMessage info.channel_id info.sequence ts ts m.payload],
          hsidlt, ?_, ?_⟩
        · simp only [schemaRegs_append, hsregs, schemaRegs_write]
        · rw [hdecomp]; simp
    · rw [alookup_ainsert_ne _ _ _ _ hkk] at hlk
      obtain ⟨hpos2, hseq2, hseqs2, hregs2, hlt2, hschema2⟩ := H.present k info2 hlk
      have hne : info2.channel_id ≠ info.channel_id :=
        H.distinct k (keyOf m) info2 info hlk hk hkk
      rw [hcnt, if_neg (fun h => hkk h.symm)]
      refine ⟨by omega, by simpa using hseq2, ?_, ?_, hlt2, ?_⟩
      · rw [seqsOn_append, hseqs2, seqsOn_write,
          if_neg (fun h => hne (Eq.symm h))]
        simp
      · simp only [chanRegs_append, hregs2, chanRegs_write]
      · obtain ⟨sid, enc, data, pre, post, hsidlt, hsregs, hdecomp⟩ := hschema2
        refine ⟨sid, enc, data, pre,
          post ++ [.writeMessage info.channel_id info.sequence ts ts m.payload],
          hsidlt, ?_, ?_⟩
        · simp only [schemaRegs_append, hsregs, schemaRegs_write]
        · rw [hdecomp]; simp
  · -- distinct
    intro k1 k2 i1 i2 h1 h2 hne
    by_cases hk1 : k1 = keyOf m <;> by_cases hk2 : k2 = keyOf m
    · exact absurd (hk1.trans hk2.symm) hne
    · subst hk1
      rw [alookup_ainsert_self] at h1
      rw [alookup_ainsert_ne _ _ _ _ hk2] at h2
      have : i1 = ⟨info.channel_id, (info.sequence + 1) % 2 ^ 32⟩ := by
        injection h1 with h; exact h.symm
      subst this
      exact fun hcc => (H.distinct (keyOf m) k2 info i2 hk h2 hne) hcc
    · subst hk2
      rw [alookup_ainsert_self] at h2
      rw [alookup_ainsert_ne _ _ _ _ hk1] at h1
      have : i2 = ⟨info.channel_id, (info.sequence + 1) % 2 ^ 32⟩ := by
        injection h2 with h; exact h.symm
      subst this
      exact H.distinct k1 (keyOf m) i1 info h1 hk hne
    · rw [alookup_ainsert_ne _ _ _ _ hk1] at h1
      rw [alookup_ainsert_ne _ _ _ _ hk2] at h2
      exact H.distinct k1 k2 i1 i2 h1 h2 hne
  · -- freshChan
    intro c hc
    have hc2 : st.writer.nextChannelId ≤ c := hc
    obtain ⟨hs, hr⟩ := H.freshChan c hc2
    constructor
    · simp only [seqsOn_append, hs, seqsOn_write]
      have hcne : info.channel_id ≠ c := by omega
      simp [hcne]
    · simp only [chanRegs_append, hr, chanRegs_write]
  · -- freshSchema
    intro s hs
    have hs2 : st.writer.nextSchemaId ≤ s := hs
    simp only [schemaRegs_append, H.freshSchema s hs2, schemaRegs_write]


theorem seqsOn_addPair (c sid cid sid2 : Nat) (n e t me : String) (d : List Nat) :
    seqsOn c [.addSchema sid n e d, .addChannel cid sid2 t me] = [] := rfl

theorem chanRegs_addPair (c sid cid sid2 : Nat) (n e t me : String) (d : List Nat) :
    chanRegs c [.addSchema sid n e d, .addChannel cid sid2 t me]
      = if cid = c then 1 else 0 := by
  by_cases h : cid = c <;> simp [chanRegs, h]

theorem schemaRegs_addPair (s sid cid sid2 : Nat) (n e t me : String) (d : List Nat) :
    schemaRegs s [.addSchema sid n e d, .addChannel cid sid2 t me]
      = if sid = s then 1 else 0 := by
  by_cases h : sid = s <;> simp [schemaRegs, h]

theorem writeStep_inv_new (st : PipeState) (processed : List (Nat × OutMsg))
    (ts : Nat) (m : OutMsg)
    (hk : alookup st.channel_map (keyOf m) = none)
    (H : Inv st processed) :
    Inv (writeStep st ts m) (processed ++ [(ts, m)]) := by
  rw [writeStep_eq_new st ts m hk]
  have hcnt0 : count (keyOf m) processed = 0 := H.absent (keyOf m) hk
  have hcnt : ∀ k, count k (processed ++ [(ts, m)])
      = count k processed + (if keyOf m = k then 1 else 0) := fun k => by
    rw [count_append, count_single]
  refine ⟨?_, ?_, ?_, ?_, ?_⟩
  · -- absent
    intro k hlk
    by_cases hkk : k = keyOf m
    · rw [hkk, alookup_ainsert_self] at hlk; exact absurd hlk (by simp)
    · rw [alookup_ainsert_ne _ _ _ _ hkk, alookup_ainsert_ne _ _ _ _ hkk] at hlk
      rw [hcnt, H.absent k hlk, if_neg (fun h => hkk h.symm)]
  · -- present
    intro k info2 hlk
    by_cases hkk : k = keyOf m
    · subst hkk
      rw [alookup_ainsert_self] at hlk
      have hinfo2 : info2 = ⟨st.writer.nextChannelId, 1 % 2 ^ 32⟩ := by
        injection hlk with h; exact h.symm
      subst hinfo2
      rw [hcnt, if_pos rfl, hcnt0]
      refine ⟨by omega, by simp, ?_, ?_, by simp, ?_⟩
      · rw [seqsOn_append, seqsOn_append,
          (H.freshChan st.writer.nextChannelId (le_refl _)).1,
          seqsOn_addPair, seqsOn_write, if_pos rfl]
        decide
      · rw [chanRegs_append, chanRegs_append,
          (H.freshChan st.writer.nextChannelId (le_refl _)).2,
          chanRegs_addPair, if_pos rfl, chanRegs_write]
      · refine ⟨st.writer.nextSchemaId, m.schema_encoding, m.schema_data,
          st.writer.ops,
          [.writeMessage st.writer.nextChannelId 0 ts ts m.payload],
          by simp, ?_, by simp [keyOf]⟩
        rw [schemaRegs_append, schemaRegs_append,
          H.freshSchema st.writer.nextSchemaId (le_refl _),
          schemaRegs_addPair, if_pos rfl, schemaRegs_write]
    · rw [alookup_ainsert_ne _ _ _ _ hkk, alookup_ainsert_ne _ _ _ _ hkk] at hlk
      obtain ⟨hpos2, hseq2, hseqs2, hregs2, hlt2, hschema2⟩ := H.present k info2 hlk
      have hcidne : info2.channel_id ≠ st.writer.nextChannelId := by omega
      rw [hcnt, if_neg (fun h => hkk h.symm)]
      refine ⟨by omega, by simpa using hseq2, ?_, ?_, ?_, ?_⟩
      · rw [seqsOn_append, seqsOn_append, hseqs2, seqsOn_addPair, seqsOn_write,
          if_neg (fun h => hcidne (Eq.symm h))]
        simp
      · rw [chanRegs_append, chanRegs_append, hregs2, chanRegs_addPair,
          if_neg (fun h => hcidne (Eq.symm h)), chanRegs_write]
      · show info2.channel_id < st.writer.nextChannelId + 1
        omega
      · obtain ⟨sid, enc, data, pre, post, hsidlt, hsregs, hdecomp⟩ := hschema2
        have hsidne : sid ≠ st.writer.nextSchemaId := by omega
        refine ⟨sid, enc, data, pre,
          post ++ [.addSchema st.writer.nextSchemaId m.schema_name
                     m.schema_encoding m.schema_data,
                   .addChannel st.writer.nextChannelId st.writer.nextSchemaId
                     m.topic "json"]
               ++ [.writeMessage st.writer.nextChannelId 0 ts ts m.payload],
          show sid < st.writer.nextSchemaId + 1 from by omega, ?_, ?_⟩
        · rw [schemaRegs_append, schemaRegs_append, hsregs, schemaRegs_addPair,
            if_neg (fun h => hsidne (Eq.symm h)), schemaRegs_write]
        · rw [hdecomp]; simp
  · -- distinct
    intro k1 k2 i1 i2 h1 h2 hne
    by_cases hk1 : k1 = keyOf m <;> by_cases hk2 : k2 = keyOf m
    · exact absurd (hk1.trans hk2.symm) hne
    · subst hk1
      rw [alookup_ainsert_self] at h1
      rw [alookup_ainsert_ne _ _ _ _ hk2, alookup_ainsert_ne _ _ _ _ hk2] at h2
      have hi1 : i1 = ⟨st.writer.nextChannelId, 1 % 2 ^ 32⟩ := by
        injection h1 with h; exact h.symm
      subst hi1
      have hlt2b := (H.present k2 i2 h2).2.2.2.2.1
      intro hcc
      have hcc2 : st.writer.nextChannelId = i2.channel_id := hcc
      omega
    · subst hk2
      rw [alookup_ainsert_self] at h2
      rw [alookup_ainsert_ne _ _ _ _ hk1, alookup_ainsert_ne _ _ _ _ hk1] at h1
      have hi2 : i2 = ⟨st.writer.nextChannelId, 1 % 2 ^ 32⟩ := by
        injection h2 with h; exact h.symm
      subst hi2
      have hlt1b := (H.present k1 i1 h1).2.2.2.2.1
      intro hcc
      have hcc2 : i1.channel_id = st.writer.nextChannelId := hcc
      omega
    · rw [alookup_ainsert_ne _ _ _ _ hk1, alookup_ainsert_ne _ _ _ _ hk1] at h1
      rw [alookup_ainsert_ne _ _ _ _ hk2, alookup_ainsert_ne _ _ _ _ hk2] at h2
      exact H.distinct k1 k2 i1 i2 h1 h2 hne
  · -- freshChan
    intro c hc
    have hc2 : st.writer.nextChannelId + 1 ≤ c := hc
    have hcold : st.writer.nextChannelId ≤ c := by omega
    obtain ⟨hs, hr⟩ := H.freshChan c hcold
    have hcidne : st.writer.nextChannelId ≠ c := by omega
    constructor
    · rw [seqsOn_append, seqsOn_append, hs, seqsOn_addPair, seqsOn_write,
        if_neg hcidne]
      simp
    · rw [chanRegs_append, chanRegs_append, hr, chanRegs_addPair,
        if_neg hcidne, chanRegs_write]
  · -- freshSchema
    intro s hs
    have hs2 : st.writer.nextSchemaId + 1 ≤ s := hs
    have hsold : st.writer.nextSchemaId ≤ s := by omega
    have hsidne : st.writer.nextSchemaId ≠ s := by omega
    rw [schemaRegs_append, schemaRegs_append, H.freshSchema s hsold,
      schemaRegs_addPair, if_neg hsidne, schemaRegs_write]


theorem writeStep_inv (st : PipeState) (processed : List (Nat × OutMsg))
    (ts : Nat) (m : OutMsg) (H : Inv st processed) :
    Inv (writeStep st ts m) (processed ++ [(ts, m)]) := by
  cases hk : alookup st.channel_map (keyOf m) with
  | none => exact writeStep_inv_new st processed ts m hk H
  | some info => exact writeStep_inv_registered st processed ts m info hk H

theorem runWrites_inv (ms : List (Nat × OutMsg)) :
    ∀ (st : PipeState) (processed : List (Nat × OutMsg)),
      Inv st processed → Inv (runWrites st ms) (processed ++ ms) := by
  induction ms with
  | nil => intro st processed h; simpa [runWrites] using h
  | cons p rest ih =>
    intro st processed h
    obtain ⟨ts, m⟩ := p
    have h3 := ih (writeStep st ts m) (processed ++ [(ts, m)])
      (writeStep_inv st processed ts m h)
    simpa [runWrites] using h3

theorem range_map_mod (n : Nat) (h : n ≤ 2 ^ 32) :
    (List.range n).map (· % 2 ^ 32) = List.range n := by
  have h2 : ∀ x ∈ List.range n, x % 2 ^ 32 = x := fun x hx =>
    Nat.mod_eq_of_lt (lt_of_lt_of_le (List.mem_range.mp hx) h)
  calc (List.range n).map (· % 2 ^ 32) = (List.range n).map id :=
        List.map_congr_left h2
    _ = List.range n := List.map_id _

/-- C8 as amended: for every key (topic, schema_name) with n messages
written, where n ≤ 2^32 (the u32 range of the sequence counter — beyond
it the counter wraps, see the counterexample), the final state maps the
key to a channel whose logged sequence numbers are exactly
0, 1, ..., n-1 in order (starting at 0, increasing by exactly 1, no
reset below the wrap bound); exactly one channel registration carries
that channel id, immediately preceded by its schema registration, which
is also unique; and every other key's channel id differs, so sequences
are never shared between channels. -/
theorem c8_channel_registry :
    ∀ (msgs : List (Nat × OutMsg)) (k : String × String),
      0 < count k msgs → count k msgs ≤ 2 ^ 32 →
      ∃ info : McapChannelInfo,
        alookup (runWrites initPipe msgs).channel_map k = some info
        ∧ seqsOn info.channel_id (runWrites initPipe msgs).writer.ops
            = List.range (count k msgs)
        ∧ chanRegs info.channel_id (runWrites initPipe msgs).writer.ops = 1
        ∧ (∃ sid enc data pre post,
            schemaRegs sid (runWrites initPipe msgs).writer.ops = 1
            ∧ (runWrites initPipe msgs).writer.ops
                = pre ++ [.addSchema sid k.2 enc data,
                    .addChannel info.channel_id sid k.1 "json"] ++ post)
        ∧ (∀ k2 info2,
            alookup (runWrites initPipe msgs).channel_map k2 = some info2 →
            k2 ≠ k → info2.channel_id ≠ info.channel_id) := by
  intro msgs k hpos hle
  have H := runWrites_inv msgs initPipe [] inv_init
  simp only [List.nil_append] at H
  cases hlk : alookup (runWrites initPipe msgs).channel_map k with
  | none =>
    rw [H.absent k hlk] at hpos
    exact absurd hpos (by omega)
  | some info =>
    obtain ⟨hp, hs, hseqs, hregs, hlt, sid, enc, data, pre, post, hsl, hsr, hdec⟩ :=
      H.present k info hlk
    refine ⟨info, rfl, ?_, hregs, ⟨sid, enc, data, pre, post, hsr, hdec⟩, ?_⟩
    · rw [hseqs, range_map_mod _ hle]
    · intro k2 info2 h2 hne
      exact H.distinct k2 k info2 info h2 hlk hne

/-- Witness for C8 at a two-message run on one key. -/
theorem c8_channel_registry_witness :
    ∃ info : McapChannelInfo,
      alookup (runWrites initPipe [(5, ⟨"/t", "s", "jsonschema", [7], [1]⟩),
          (6, ⟨"/t", "s", "jsonschema", [7], [2]⟩)]).channel_map ("/t", "s")
        = some info
      ∧ seqsOn info.channel_id (runWrites initPipe
            [(5, ⟨"/t", "s", "jsonschema", [7], [1]⟩),
             (6, ⟨"/t", "s", "jsonschema", [7], [2]⟩)]).writer.ops
          = List.range (count ("/t", "s")
              [(5, ⟨"/t", "s", "jsonschema", [7], [1]⟩),
               (6, ⟨"/t", "s", "jsonschema", [7], [2]⟩)])
      ∧ chanRegs info.channel_id (runWrites initPipe
            [(5, ⟨"/t", "s", "jsonschema", [7], [1]⟩),
             (6, ⟨"/t", "s", "jsonschema", [7], [2]⟩)]).writer.ops = 1
      ∧ (∃ sid enc data pre post,
          schemaRegs sid (runWrites initPipe
              [(5, ⟨"/t", "s", "jsonschema", [7], [1]⟩),
               (6, ⟨"/t", "s", "jsonschema", [7], [2]⟩)]).writer.ops = 1
          ∧ (runWrites initPipe
              [(5, ⟨"/t", "s", "jsonschema", [7], [1]⟩),
               (6, ⟨"/t", "s", "jsonschema", [7], [2]⟩)]).writer.ops
              = pre ++ [.addSchema sid ("/t", "s").2 enc data,
                  .addChannel info.channel_id sid ("/t", "s").1 "json"] ++ post)
      ∧ (∀ k2 info2,
          alookup (runWrites initPipe
              [(5, ⟨"/t", "s", "jsonschema", [7], [1]⟩),
               (6, ⟨"/t", "s", "jsonschema", [7], [2]⟩)]).channel_map k2
            = some info2 →
          k2 ≠ ("/t", "s") → info2.channel_id ≠ info.channel_id) :=
  c8_channel_registry
    [(5, ⟨"/t", "s", "jsonschema", [7], [1]⟩),
     (6, ⟨"/t", "s", "jsonschema", [7], [2]⟩)]
    ("/t", "s") (by decide) (by decide)

/-- Counting a key over a replicated message list. -/
theorem count_replicate (n ts : Nat) (m : OutMsg) (k : String × String)
    (h : keyOf m = k) : count k (List.replicate n (ts, m)) = n := by
  induction n with
  | zero => rfl
  | succ n ih =>
    rw [List.replicate_succ,
      show count k ((ts, m) :: List.replicate n (ts, m))
          = count k ([(ts, m)] ++ List.replicate n (ts, m)) from rfl,
      count_append, count_single, if_pos h, ih]
    omega

/-- A run of 2^32 + 1 messages on a single key — one more than the u32
sequence counter can count. -/
def wrapRun : List (Nat × OutMsg) :=
  List.replicate (2 ^ 32 + 1) (0, ⟨"/w", "s", "jsonschema", [], []⟩)

set_option maxRecDepth 4000 in
/-- C8 counterexample: the sequence counter is a u32
(pipeline.rs 24, 101), so on the 2^32+1-th message of one channel it has
wrapped: the channel's logged sequence list for `wrapRun` is
`(range (2^32+1)).map (· % 2^32)`, whose last element is 0 — sequence 0
recurs, a reset — instead of the `range (2^32+1)` (last element 2^32)
that the claim's unconditional rule (increase by exactly 1, never reset)
demands.  Proved from the registry invariant, not by evaluation. -/
theorem c8_counterexample :
    ∃ info : McapChannelInfo,
      alookup (runWrites initPipe wrapRun).channel_map ("/w", "s") = some info
      ∧ count ("/w", "s") wrapRun = 2 ^ 32 + 1
      ∧ seqsOn info.channel_id (runWrites initPipe wrapRun).writer.ops
          = (List.range (2 ^ 32 + 1)).map (· % 2 ^ 32)
      ∧ ((List.range (2 ^ 32 + 1)).map (· % 2 ^ 32)).getLast? = some 0
      ∧ (List.range (2 ^ 32 + 1)).getLast? = some (2 ^ 32)
      ∧ seqsOn info.channel_id (runWrites initPipe wrapRun).writer.ops
          ≠ List.range (2 ^ 32 + 1) := by
  have hcnt : count ("/w", "s") wrapRun = 2 ^ 32 + 1 :=
    count_replicate (2 ^ 32 + 1) 0 ⟨"/w", "s", "jsonschema", [], []⟩ ("/w", "s") rfl
  have H := runWrites_inv wrapRun initPipe [] inv_init
  simp only [List.nil_append] at H
  cases hlk : alookup (runWrites initPipe wrapRun).channel_map ("/w", "s") with
  | none =>
    have h0 := H.absent ("/w", "s") hlk
    rw [hcnt] at h0
    exact absurd h0 (by norm_num)
  | some info =>
    obtain ⟨_, _, hseqs, _, _, _⟩ := H.present ("/w", "s") info hlk
    rw [hcnt] at hseqs
    have hlast : ((List.range (2 ^ 32 + 1)).map (· % 2 ^ 32)).getLast? = some 0 := by
      rw [List.range_succ, List.map_append]
      simp [Nat.mod_self]
    have hlast2 : (List.range (2 ^ 32 + 1)).getLast? = some (2 ^ 32) := by
      rw [List.range_succ]
      simp
    refine ⟨info, ?_, ?_, ?_, ?_, ?_, ?_⟩
    · rfl
    · exact hcnt
    · exact hseqs
    · exact hlast
    · exact hlast2
    intro heq
    have hmapeq : (List.range (2 ^ 32 + 1)).map (· % 2 ^ 32)
        = List.range (2 ^ 32 + 1) := by rw [← hseqs, heq]
    rw [hmapeq, hlast2] at hlast
    have : (2 ^ 32 : Nat) = 0 := by injection hlast
    exact absurd this (by norm_num)

end Pipeline

namespace Transformers

/-- Function `euler_to_quat` of transformers.rs 123-151 over the reals (the f64
arithmetic idealized to exact real arithmetic): convert centi-degrees to
radians (`x.to_radians() = x * (π / 180)`), build the aerospace Z-Y-X
quaternion in the NED frame, then negate y and z for the ENU output. -/
noncomputable def euler_to_quat (roll_cd pitch_cd yaw_cd : ℝ) : ℝ × ℝ × ℝ × ℝ :=
  let r := (roll_cd / 100) * (Real.pi / 180)
  let p := (pitch_cd / 100) * (Real.pi / 180)
  let y := (yaw_cd / 100) * (Real.pi / 180)
  let cy := Real.cos (y * 0.5)
  let sy := Real.sin (y * 0.5)
  let cp := Real.cos (p * 0.5)
  let sp := Real.sin (p * 0.5)
  let cr := Real.cos (r * 0.5)
  let sr := Real.sin (r * 0.5)
  let q_w := cr * cp * cy + sr * sp * sy
  let q_x := sr * cp * cy - cr * sp * sy
  let q_y := cr * sp * cy + sr * cp * sy
  let q_z := cr * cp * sy - sr * sp * cy
  (q_x, -q_y, -q_z, q_w)

/-- C10: at zero Euler angles the quaternion is the identity
`(0, 0, 0, 1)`, and for every input the squared norm is exactly 1 (over
the reals; the NED→ENU negation of y and z preserves the norm). -/
theorem c10_euler_to_quat_unit :
    euler_to_quat 0 0 0 = (0, 0, 0, 1)
  ∧ ∀ (roll_cd pitch_cd yaw_cd : ℝ),
      (euler_to_quat roll_cd pitch_cd yaw_cd).1 ^ 2
      + (euler_to_quat roll_cd pitch_cd yaw_cd).2.1 ^ 2
      + (euler_to_quat roll_cd pitch_cd yaw_cd).2.2.1 ^ 2
      + (euler_to_quat roll_cd pitch_cd yaw_cd).2.2.2 ^ 2 = 1 := by
  constructor
  · norm_num [euler_to_quat]
  · intro rc pc yc
    simp only [euler_to_quat]
    have hr := Real.sin_sq_add_cos_sq ((rc / 100) * (Real.pi / 180) * 0.5)
    have hp := Real.sin_sq_add_cos_sq ((pc / 100) * (Real.pi / 180) * 0.5)
    have hy := Real.sin_sq_add_cos_sq ((yc / 100) * (Real.pi / 180) * 0.5)
    calc (Real.sin ((rc / 100) * (Real.pi / 180) * 0.5)
            * Real.cos ((pc / 100) * (Real.pi / 180) * 0.5)
            * Real.cos ((yc / 100) * (Real.pi / 180) * 0.5)
          - Real.cos ((rc / 100) * (Real.pi / 180) * 0.5)
            * Real.sin ((pc / 100) * (Real.pi / 180) * 0.5)
            * Real.sin ((yc / 100) * (Real.pi / 180) * 0.5)) ^ 2
        + (-(Real.cos ((rc / 100) * (Real.pi / 180) * 0.5)
            * Real.sin ((pc / 100) * (Real.pi / 180) * 0.5)
            * Real.cos ((yc / 100) * (Real.pi / 180) * 0.5)
          + Real.sin ((rc / 100) * (Real.pi / 180) * 0.5)
            * Real.cos ((pc / 100) * (Real.pi / 180) * 0.5)
            * Real.sin ((yc / 100) * (Real.pi / 180) * 0.5))) ^ 2
        + (-(Real.cos ((rc / 100) * (Real.pi / 180) * 0.5)
            * Real.cos ((pc / 100) * (Real.pi / 180) * 0.5)
            * Real.sin ((yc / 100) * (Real.pi / 180) * 0.5)
          - Real.sin ((rc / 100) * (Real.pi / 180) * 0.5)
            * Real.sin ((pc / 100) * (Real.pi / 180) * 0.5)
            * Real.cos ((yc / 100) * (Real.pi / 180) * 0.5))) ^ 2
        + (Real.cos ((rc / 100) * (Real.pi / 180) * 0.5)
            * Real.cos ((pc / 100) * (Real.pi / 180) * 0.5)
            * Real.cos ((yc / 100) * (Real.pi / 180) * 0.5)
          + Real.sin ((rc / 100) * (Real.pi / 180) * 0.5)
            * Real.sin ((pc / 100) * (Real.pi / 180) * 0.5)
            * Real.sin ((yc / 100) * (Real.pi / 180) * 0.5)) ^ 2
        = (Real.sin ((rc / 100) * (Real.pi / 180) * 0.5) ^ 2
            + Real.cos ((rc / 100) * (Real.pi / 180) * 0.5) ^ 2)
          * (Real.sin ((pc / 100) * (Real.pi / 180) * 0.5) ^ 2
            + Real.cos ((pc / 100) * (Real.pi / 180) * 0.5) ^ 2)
          * (Real.sin ((yc / 100) * (Real.pi / 180) * 0.5) ^ 2
            + Real.cos ((yc / 100) * (Real.pi / 180) * 0.5) ^ 2) := by ring
      _ = 1 := by rw [hr, hp, hy]; norm_num

end Transformers
